import Mathlib

/-!
Verification of the governance-gated ingestion pipeline of the
regpulse-lakehouse repository: a shallow embedding in Lean 4 of the
trust-policy engine, the schema/evidence validator, the ingestion-job
routing decisions, the content-addressed object store, the download-index
cooldown gate, the fetch retry loop, the file-selection tie-break of the
site connector, and the lineage-graph builder, together with theorems
settling the specification claims about them.

Conventions of the embedding:
- JavaScript strings are Lean `String`s; character-level operations are
  implemented on `List Char` (`String.data`).  ASCII case folding models
  JavaScript `toLowerCase`/`toUpperCase` (the data of this system is
  ASCII identifiers, URLs and enum values).
- JavaScript numbers that carry fractional values (confidence scores,
  minute arithmetic) are `Rat`; millisecond timestamps are `Int`.
- Fallible code (thrown exceptions) is `Option`/`Except`.
- External collaborators (SHA-256 / SHA-1 digests, `Date.parse`, locale
  date formatting, the filesystem, the network) are explicit parameters
  of the embedded functions, so every theorem holds for any behaviour of
  the collaborator and every definition stays executable.
-/

/-! ## Generic string helpers (JavaScript string semantics) -/

/-- Characters of a string. -/
def strChars (s : String) : List Char := s.data

/-- Build a string from characters. -/
def charsToStr (l : List Char) : String := String.mk l

/-- ASCII lower-casing of one character (models JS `toLowerCase` on the
ASCII identifiers, URLs and enum values this system manipulates). -/
def asciiLower (c : Char) : Char :=
  if 'A' ≤ c ∧ c ≤ 'Z' then Char.ofNat (c.toNat + 32) else c

/-- ASCII upper-casing of one character. -/
def asciiUpper (c : Char) : Char :=
  if 'a' ≤ c ∧ c ≤ 'z' then Char.ofNat (c.toNat - 32) else c

/-- JS `s.toLowerCase()`. -/
def jsToLower (s : String) : String := charsToStr (s.data.map asciiLower)

/-- JS `s.toUpperCase()`. -/
def jsToUpper (s : String) : String := charsToStr (s.data.map asciiUpper)

/-- Does `l` contain `pat` as a contiguous sublist?  (JS `includes`.) -/
def listContainsSub : List Char → List Char → Bool
  | [], pat => pat.isEmpty
  | c :: rest, pat => pat.isPrefixOf (c :: rest) || listContainsSub rest pat

/-- JS `s.includes(sub)`. -/
def jsIncludes (s sub : String) : Bool := listContainsSub s.data sub.data

/-- Replace the first occurrence of `pat` in the list (JS
`String.prototype.replace` with a string pattern replaces only the first
occurrence). -/
def listReplaceFirst : List Char → List Char → List Char → List Char
  | [], _, _ => []
  | c :: rest, pat, rep =>
    if pat.isPrefixOf (c :: rest) then rep ++ (c :: rest).drop pat.length
    else c :: listReplaceFirst rest pat rep

/-- JS `s.replace(pat, rep)` with a plain-string pattern. -/
def jsReplaceFirst (s pat rep : String) : String :=
  charsToStr (listReplaceFirst s.data pat.data rep.data)

/-- Split at the first occurrence of `pat`: `some (before, after)`. -/
def listSplitFirst : List Char → List Char → Option (List Char × List Char)
  | [], _ => none
  | c :: rest, pat =>
    if pat.isPrefixOf (c :: rest) then some ([], (c :: rest).drop pat.length)
    else
      match listSplitFirst rest pat with
      | some (a, b) => some (c :: a, b)
      | none => none

/-- JS `s.startsWith(p)`. -/
def jsStartsWith (s p : String) : Bool := p.data.isPrefixOf s.data

/-- JS `s.endsWith(p)`. -/
def jsEndsWith (s p : String) : Bool := p.data.reverse.isPrefixOf s.data.reverse

/-- JS `s.slice(0, n)` / `String.take`. -/
def jsTake (s : String) (n : Nat) : String := charsToStr (s.data.take n)

/-- Drop the last `n` characters (used for trailing-slash stripping). -/
def jsDropRight (s : String) (n : Nat) : String :=
  charsToStr (s.data.take (s.data.length - n))

/-- JS falsy-or on an optional string: `a || b` where `undefined` and the
empty string are falsy. -/
def jsOrS (a : Option String) (b : String) : String :=
  match a with
  | some s => if s = "" then b else s
  | none => b

/-- JS falsy-or between two optional strings (`a || b`), where the result
is `none` only when both are absent/empty. -/
def jsOrOS (a b : Option String) : Option String :=
  match a with
  | some s => if s = "" then b else some s
  | none => b

/-- Truthiness of an optional string (`undefined` and "" are falsy). -/
def truthyS (o : Option String) : Bool :=
  match o with
  | some s => s ≠ ""
  | none => false

/-! ## Association-list map with JS `Map` update semantics

`Map.set` on an existing key updates the value in place (keeping the
original insertion position); on a new key it appends.  Iteration order of
`Map.prototype.values()` is insertion order. -/

/-- `Map.get` (first binding). -/
def mapGet {α : Type} : List (String × α) → String → Option α
  | [], _ => none
  | p :: rest, k => if p.1 = k then some p.2 else mapGet rest k

/-- `Map.set`: update the first binding of the key in place, else
append. -/
def mapSet {α : Type} : List (String × α) → String → α → List (String × α)
  | [], k, v => [(k, v)]
  | p :: rest, k, v =>
    if p.1 = k then (k, v) :: rest else p :: mapSet rest k v

/-- `Map.has`. -/
def mapHas {α : Type} (m : List (String × α)) (k : String) : Bool :=
  (mapGet m k).isSome

/-- `Map.values()` in insertion order. -/
def mapValues {α : Type} (m : List (String × α)) : List α := m.map (·.2)

/-! ## URL model

A parsed WHATWG URL restricted to the parts this codebase reads:
protocol, lower-cased hostname, pathname (always starting with "/"),
and the search string ("" or "?"-prefixed).  Fragments are dropped, as
`origin + pathname + search` never contains them.  Ports and
percent-encoding normalisation are outside the model (no URL in this
system uses them). -/

structure ParsedUrl where
  scheme : String
  host : String
  pathname : String
  search : String
  deriving Repr, DecidableEq

/-- Parse the search string into key/value pairs
(`URLSearchParams` view; a pair without "=" gets value ""). -/
def parseParams (search : String) : List (String × String) :=
  if search = "" then []
  else
    ((search.data.drop 1).splitOn '&').map (fun part =>
      match listSplitFirst part ['='] with
      | some (k, v) => (charsToStr k, charsToStr v)
      | none => (charsToStr part, ""))

/-- Serialize key/value pairs back into a query (without the "?"). -/
def serializeParams (ps : List (String × String)) : String :=
  String.intercalate "&" (ps.map (fun p => p.1 ++ "=" ++ p.2))

/-- `url.searchParams.get(key)`: first value or `none`. -/
def paramsGet (ps : List (String × String)) (k : String) : Option String :=
  (ps.find? (fun p => p.1 = k)).map (·.2)

/-- Is the character ASCII alphabetic? -/
def isAsciiAlpha (c : Char) : Bool :=
  ('a' ≤ c ∧ c ≤ 'z') ∨ ('A' ≤ c ∧ c ≤ 'Z')

/-- Parse an absolute URL; `none` models `new URL(...)` throwing. -/
def parseUrl (s : String) : Option ParsedUrl :=
  match listSplitFirst s.data [':', '/', '/'] with
  | none => none
  | some (schemeCs, afterScheme) =>
    if schemeCs.isEmpty ∨ ¬ schemeCs.all isAsciiAlpha then none
    else
      let noFrag := afterScheme.takeWhile (fun c => c ≠ '#')
      let hostCs := noFrag.takeWhile (fun c => c ≠ '/' ∧ c ≠ '?')
      if hostCs.isEmpty then none
      else
        let rest := noFrag.drop hostCs.length
        let pathCs := rest.takeWhile (fun c => c ≠ '?')
        let queryCs := rest.drop pathCs.length
        some
          { scheme := jsToLower (charsToStr schemeCs)
            host := jsToLower (charsToStr hostCs)
            pathname := if pathCs.isEmpty then "/" else charsToStr pathCs
            search := if queryCs.length ≤ 1 then "" else charsToStr queryCs }

/-- `url.origin`. -/
def ParsedUrl.origin (u : ParsedUrl) : String := u.scheme ++ "://" ++ u.host

/-- `url.toString()` for the modelled parts. -/
def ParsedUrl.serialize (u : ParsedUrl) : String :=
  u.origin ++ u.pathname ++ u.search

example : parseUrl "https://www.unece.org/doc/x?a=1&utm_source=n" =
    some { scheme := "https", host := "www.unece.org", pathname := "/doc/x",
           search := "?a=1&utm_source=n" } := by decide

example : parseUrl "not a url" = none := by decide

example : jsReplaceFirst "www.unece.org" "www." "" = "unece.org" := by decide

/-! ## Ontology terms  (packages/ontology/src/terms.ts) -/

/-- `ALLOWED_DOMAINS` from packages/ontology/src/terms.ts. -/
def ALLOWED_DOMAINS : List String :=
  ["unece.org", "globalautoregs.com", "futurium.ec.europa.eu",
   "commission.europa.eu", "digital-strategy.ec.europa.eu", "ec.europa.eu",
   "eur-lex.europa.eu", "op.europa.eu", "gesetze-im-internet.de",
   "legifrance.gouv.fr", "legislation.gov.uk", "rdw.nl", "vca.gov.uk",
   "edpb.europa.eu", "bfdi.bund.de", "bsi.bund.de", "cnil.fr",
   "enisa.europa.eu", "wiki.unece.org", "www.gov.uk", "kba.de", "utac.com",
   "idiada.com", "vda.de"]

/-- `JURISDICTIONS`. -/
def JURISDICTIONS : List String :=
  ["EU", "DE", "FR", "UK", "UN_ECE", "GLOBAL", "ES", "IT", "CZ", "PL"]

/-- `SOURCE_TYPES`. -/
def SOURCE_TYPES : List String :=
  ["regulation", "draft", "guidance", "position_paper", "minutes",
   "technical_notice"]

/-- `ITEM_STATUSES`. -/
def ITEM_STATUSES : List String :=
  ["proposed", "adopted", "in_force", "repealed", "unknown"]

/-- `TOPICS`. -/
def TOPICS : List String :=
  ["AI_ACT", "GDPR", "DATA_ACT", "DCAS_R171", "GSR", "EU_NCAP_2026",
   "CYBER_SECURITY", "SOFTWARE_UPDATE", "AUTOMATED_DRIVING", "TYPE_APPROVAL",
   "ADAS", "UNECE_WP29", "VEHICLE_DYNAMICS", "DRIVABILITY", "POWERTRAIN",
   "CHARGING", "BATTERY", "EMISSIONS", "RANGE", "INTERIOR", "EXTERIOR",
   "MATERIALS"]

/-- `IMPACTED_AREAS`. -/
def IMPACTED_AREAS : List String :=
  ["ODD", "Perception", "DMS", "HMI", "Validation", "Homologation",
   "Data_Governance", "Cybersecurity", "OTA", "Vehicle_Dynamics",
   "Drivability", "Powertrain", "Charging", "Battery", "Emissions", "Range",
   "Interior", "Exterior", "Materials"]

/-- `PRIORITIES`. -/
def PRIORITIES : List String := ["P0", "P1", "P2"]

/-- `TRUST_TIERS`. -/
def TRUST_TIERS : List String :=
  ["TIER_A_BINDING", "TIER_B_OFFICIAL_SIGNAL", "TIER_C_SOFT_REQ",
   "TIER_D_QUARANTINE"]

/-- `MONITORING_STAGES`. -/
def MONITORING_STAGES : List String :=
  ["Drafting", "Official", "Comitology", "Interpreting", "Use&Registration"]

/-! ## String-format validators of the schema layer

Modelled from the spec: the zod string-format checks (`z.string().url()`,
`.datetime()`, `.uuid()`) are library code outside this repository; they
are modelled as basic well-formedness checks for absolute URLs, ISO-8601
UTC timestamps and dashed hex UUIDs. -/

/-- Is the character an ASCII digit? -/
def isDigitCh (c : Char) : Bool := '0' ≤ c ∧ c ≤ '9'

/-- Is the character a hex digit? -/
def isHexCh (c : Char) : Bool :=
  isDigitCh c ∨ ('a' ≤ c ∧ c ≤ 'f') ∨ ('A' ≤ c ∧ c ≤ 'F')

/-- Models `z.string().url()`: the string parses as an absolute URL. -/
def isUrlString (s : String) : Bool := (parseUrl s).isSome

/-- Fractional-seconds-plus-Z tail of an ISO timestamp. -/
def isFracZ : List Char → Bool
  | ['Z'] => true
  | '.' :: rest =>
    let ds := rest.takeWhile isDigitCh
    ¬ ds.isEmpty ∧ rest.drop ds.length = ['Z']
  | _ => false

/-- Models `z.string().datetime()`: `YYYY-MM-DDTHH:MM:SS(.sss)Z`. -/
def isDatetimeString (s : String) : Bool :=
  match s.data with
  | y1 :: y2 :: y3 :: y4 :: '-' :: m1 :: m2 :: '-' :: d1 :: d2 :: 'T' ::
      h1 :: h2 :: ':' :: n1 :: n2 :: ':' :: s1 :: s2 :: rest =>
    ([y1, y2, y3, y4, m1, m2, d1, d2, h1, h2, n1, n2, s1, s2].all isDigitCh)
      ∧ isFracZ rest
  | _ => false

/-- Models `z.string().uuid()`: five dashed groups of hex digits with
lengths 8-4-4-4-12. -/
def isUuidString (s : String) : Bool :=
  let parts := s.data.splitOn '-'
  parts.map List.length = [8, 4, 4, 4, 12]
    ∧ parts.all (fun p => p.all isHexCh)

example : isDatetimeString "2024-01-01T00:00:00Z" = true := by decide
example : isDatetimeString "2024-01-01" = false := by decide
example : isUuidString "123e4567-e89b-12d3-a456-426614174000" = true := by
  decide

/-! ## Ontology schema  (packages/ontology/src/schemas.ts)

The raw input of `validateRegulationItem` is arbitrary JSON; the embedding
represents it as a record whose enum-valued fields are plain strings and
whose defaulted fields are optional, exactly the degrees of freedom zod
checks (enum membership, length bounds, string formats, numeric range) or
fills (defaults). -/

structure RawCitation where
  title : String
  url : String
  snippet : Option String
  deriving Repr, DecidableEq

structure RawEvidence where
  raw_file_uri : Option String
  text_snapshot_uri : Option String
  citations : Option (List RawCitation)
  deriving Repr, DecidableEq

structure RawEngineeringAction where
  action : String
  owner_role : String
  due_date : Option String
  artifact : String
  deriving Repr, DecidableEq

structure RawRegulationItem where
  id : String
  jurisdiction : String
  source_org : String
  source_type : String
  title : String
  summary_1line : String
  url : String
  published_date : Option String
  retrieved_at : String
  effective_date : Option String
  status : String
  topics : Option (List String)
  impacted_areas : Option (List String)
  engineering_actions : Option (List RawEngineeringAction)
  evidence : RawEvidence
  confidence : Rat
  notes : Option String
  priority : String
  source_document_id : Option String
  trust_tier : Option String
  monitoring_stage : Option String
  source_profile_id : Option String
  deriving Repr, DecidableEq

/-- The parsed item (`z.infer<typeof RegulationItemSchema>`): defaults
applied to `topics`, `impacted_areas`, `engineering_actions`,
`evidence.citations` and `notes`. -/
structure Evidence where
  raw_file_uri : Option String
  text_snapshot_uri : Option String
  citations : List RawCitation
  deriving Repr, DecidableEq

structure RegulationItem where
  id : String
  jurisdiction : String
  source_org : String
  source_type : String
  title : String
  summary_1line : String
  url : String
  published_date : Option String
  retrieved_at : String
  effective_date : Option String
  status : String
  topics : List String
  impacted_areas : List String
  engineering_actions : List RawEngineeringAction
  evidence : Evidence
  confidence : Rat
  notes : String
  priority : String
  source_document_id : Option String
  trust_tier : Option String
  monitoring_stage : Option String
  source_profile_id : Option String
  deriving Repr, DecidableEq

/-- A zod optional field: absent, or present and satisfying `f`. -/
def optionHolds (f : String → Bool) : Option String → Bool
  | some v => f v
  | none => true

/-- Present and violating `f` (used to state enum violations). -/
def optionViolates (f : String → Bool) : Option String → Bool
  | some v => !(f v)
  | none => false

/-- `CitationSchema.safeParse` success: `title` non-empty, `url` a URL. -/
def citationSchemaOk (c : RawCitation) : Bool :=
  decide (1 ≤ c.title.length) && isUrlString c.url

/-- `EngineeringActionSchema.safeParse` success. -/
def engineeringActionOk (a : RawEngineeringAction) : Bool :=
  decide (1 ≤ a.action.length) && decide (1 ≤ a.owner_role.length)
    && decide (1 ≤ a.artifact.length)

/-- `RegulationItemSchema.safeParse` success (field constraints of
packages/ontology/src/schemas.ts; `id` is `uuid().or(min(1))`, hence
effectively non-empty). -/
def regulationItemSchemaOk (raw : RawRegulationItem) : Bool :=
  decide (1 ≤ raw.id.length)
    && JURISDICTIONS.contains raw.jurisdiction
    && decide (1 ≤ raw.source_org.length)
    && SOURCE_TYPES.contains raw.source_type
    && decide (1 ≤ raw.title.length)
    && decide (1 ≤ raw.summary_1line.length)
    && decide (raw.summary_1line.length ≤ 400)
    && isUrlString raw.url
    && isDatetimeString raw.retrieved_at
    && ITEM_STATUSES.contains raw.status
    && (raw.topics.getD []).all TOPICS.contains
    && (raw.impacted_areas.getD []).all IMPACTED_AREAS.contains
    && (raw.engineering_actions.getD []).all engineeringActionOk
    && (raw.evidence.citations.getD []).all citationSchemaOk
    && decide (0 ≤ raw.confidence)
    && decide (raw.confidence ≤ 1)
    && PRIORITIES.contains raw.priority
    && optionHolds isUuidString raw.source_document_id
    && optionHolds (fun t => TRUST_TIERS.contains t) raw.trust_tier
    && optionHolds (fun m => MONITORING_STAGES.contains m)
        raw.monitoring_stage

/-- `parsed.data`: the zod output with defaults applied. -/
def parseRegulationItem (raw : RawRegulationItem) : RegulationItem :=
  { id := raw.id
    jurisdiction := raw.jurisdiction
    source_org := raw.source_org
    source_type := raw.source_type
    title := raw.title
    summary_1line := raw.summary_1line
    url := raw.url
    published_date := raw.published_date
    retrieved_at := raw.retrieved_at
    effective_date := raw.effective_date
    status := raw.status
    topics := raw.topics.getD []
    impacted_areas := raw.impacted_areas.getD []
    engineering_actions := raw.engineering_actions.getD []
    evidence :=
      { raw_file_uri := raw.evidence.raw_file_uri
        text_snapshot_uri := raw.evidence.text_snapshot_uri
        citations := raw.evidence.citations.getD [] }
    confidence := raw.confidence
    notes := raw.notes.getD ""
    priority := raw.priority
    source_document_id := raw.source_document_id
    trust_tier := raw.trust_tier
    monitoring_stage := raw.monitoring_stage
    source_profile_id := raw.source_profile_id }

/-! ## Validator  (services/api/src/ontology/validator.ts) -/

/-- `ValidationResult` (zod's per-field `errors` array is elided: its
messages come from library internals). -/
structure ValidationResult where
  ok : Bool
  data : Option RegulationItem
  reason : Option String
  deriving Repr, DecidableEq

/-- `isAllowedDomain`: hostname of the URL, with the first "www."
removed, contains some allowed domain as a substring; parse failure is
caught and yields `false`. -/
def isAllowedDomain (url : String) : Bool :=
  match parseUrl url with
  | some u =>
    ALLOWED_DOMAINS.any (fun d => jsIncludes (jsReplaceFirst u.host "www." "") d)
  | none => false

/-- The interpolated low-confidence reason string. -/
def confidenceReason (confidenceMin : Rat) : String :=
  "Confidence below threshold (" ++ toString confidenceMin ++ ")"

/-- `validateRegulationItem` with the runtime `confidence_min` passed
explicitly (the source reads it from `getRuntimeConfig()`).  Note that
`EvidenceSchema.safeParse(item.evidence)` on the already-parsed evidence
always succeeds, so that check reduces to the citation-count test. -/
def validateRegulationItem (confidenceMin : Rat) (raw : RawRegulationItem) :
    ValidationResult :=
  if ¬ regulationItemSchemaOk raw then
    { ok := false, data := none, reason := some "Schema validation failed" }
  else
    let item := parseRegulationItem raw
    if ¬ isAllowedDomain item.url then
      { ok := false, data := none, reason := some "Source domain not allowed" }
    else if item.evidence.citations.length = 0 then
      { ok := false, data := none,
        reason := some "Missing evidence citations" }
    else if item.confidence < confidenceMin then
      { ok := false, data := none, reason := some (confidenceReason confidenceMin) }
    else
      { ok := true, data := some item, reason := none }

/-! ## Policy engine  (the trust-policy module: `canonicalizeUrl`,
`evaluateSource`, `matchesProfile`, `findTierForDomain`) -/

/-- Per-tier configuration entry of the policy document. -/
structure TierCfg where
  allow_auto_extract : Option Bool
  allow_write_main : Option Bool
  route : Option String
  domains : Option (List String)
  deriving Repr, DecidableEq

/-- A domain/path profile of the policy document (connector and parsing
fields are irrelevant to evaluation and elided). -/
structure PolicyProfile where
  id : String
  domain : String
  path : String
  required_query_params : Option (List (String × List String))
  tier : String
  stage : String
  requires_review : Option Bool
  deriving Repr, DecidableEq

/-- Canonicalization switches of the crawler section. -/
structure CanonicalizeCfg where
  strip_utm_params : Bool
  normalize_trailing_slash : Bool
  deriving Repr, DecidableEq

/-- The policy configuration (crawler fields other than canonicalization
are irrelevant to source evaluation).  `tiers` is an ordered association
list, mirroring `Object.entries` enumeration order. -/
structure PolicyConfig where
  canonicalize : CanonicalizeCfg
  tiers : List (String × TierCfg)
  profiles : List PolicyProfile
  deriving Repr, DecidableEq

/-- `SourceEvaluation`. -/
structure SourceEvaluation where
  tier : String
  stage : String
  profile_id : Option String
  requires_review : Bool
  route : String
  allow_auto_extract : Bool
  allow_write_main : Bool
  reason : Option String
  canonical_url : String
  deriving Repr, DecidableEq

/-- `canonicalizeUrl(url, policy)`: strip `utm_*` query parameters and the
trailing slash of a non-root path, according to the policy switches; a
parse failure returns the input unchanged. -/
def canonicalizeUrl (policy : PolicyConfig) (url : String) : String :=
  match parseUrl url with
  | none => url
  | some u =>
    let params0 := parseParams u.search
    let params :=
      if policy.canonicalize.strip_utm_params then
        params0.filter (fun p => ¬ jsStartsWith (jsToLower p.1) "utm_")
      else params0
    let pathname :=
      if policy.canonicalize.normalize_trailing_slash
          ∧ u.pathname ≠ "/" ∧ jsEndsWith u.pathname "/" then
        jsDropRight u.pathname 1
      else u.pathname
    let search := if params.isEmpty then "" else "?" ++ serializeParams params
    ParsedUrl.serialize { u with pathname := pathname, search := search }

/-- `matchesProfile(profile, url)`.  Note `!param` in the source also
rejects an empty-string parameter value. -/
def matchesProfile (profile : PolicyProfile) (u : ParsedUrl) : Bool :=
  (jsReplaceFirst u.host "www." "" = profile.domain : Bool)
    && jsStartsWith u.pathname profile.path
    && (match profile.required_query_params with
        | none => true
        | some reqs =>
          reqs.all (fun kv =>
            match paramsGet (parseParams u.search) kv.1 with
            | some v => (v ≠ "" : Bool) && kv.2.contains v
            | none => false))

/-- `findTierForDomain(domain, policy)`: first tier (in entry order) whose
`domains` list has an entry contained in the hostname. -/
def findTierForDomain (domain : String) (policy : PolicyConfig) :
    Option String :=
  (policy.tiers.find? (fun tc =>
    match tc.2.domains with
    | some ds => ds.any (fun d => jsIncludes domain d)
    | none => false)).map (·.1)

/-- The default-deny evaluation returned when nothing matches. -/
def quarantineEvaluation (canonicalUrl : String) : SourceEvaluation :=
  { tier := "TIER_D_QUARANTINE"
    stage := "Drafting"
    profile_id := none
    requires_review := true
    route := "review_queue"
    allow_auto_extract := true
    allow_write_main := false
    reason := some "unrecognized_domain"
    canonical_url := canonicalUrl }

/-- `evaluateSource(url)` with the policy passed explicitly (the source
loads it from the policy file); `none` models the `new URL` throw on an
unparsable canonical URL. -/
def evaluateSource (policy : PolicyConfig) (url : String) :
    Option SourceEvaluation :=
  let canonicalUrl := canonicalizeUrl policy url
  match parseUrl canonicalUrl with
  | none => none
  | some u =>
    let domain := jsReplaceFirst u.host "www." ""
    match policy.profiles.find? (fun p => matchesProfile p u) with
    | some profile =>
      let tierConfig := mapGet policy.tiers profile.tier
      let allowWriteMain :=
        ((tierConfig.bind (·.allow_write_main)).getD
          (profile.tier = "TIER_A_BINDING"))
      let allowAutoExtract := (tierConfig.bind (·.allow_auto_extract)).getD true
      let route :=
        if profile.requires_review.getD false ∨ ¬ allowWriteMain then
          "review_queue"
        else "main"
      some
        { tier := profile.tier
          stage := profile.stage
          profile_id := some profile.id
          requires_review := profile.requires_review.getD false
          route := route
          allow_auto_extract := allowAutoExtract
          allow_write_main := allowWriteMain
          reason := none
          canonical_url := canonicalUrl }
    | none =>
      match findTierForDomain domain policy with
      | some tierFallback =>
        let tierConfig := mapGet policy.tiers tierFallback
        let allowWriteMain :=
          ((tierConfig.bind (·.allow_write_main)).getD
            (tierFallback = "TIER_A_BINDING"))
        let allowAutoExtract :=
          (tierConfig.bind (·.allow_auto_extract)).getD true
        some
          { tier := tierFallback
            stage := "Official"
            profile_id := none
            requires_review := tierFallback ≠ "TIER_A_BINDING"
            route := if allowWriteMain then "main" else "review_queue"
            allow_auto_extract := allowAutoExtract
            allow_write_main := allowWriteMain
            reason := some "domain_tier_match"
            canonical_url := canonicalUrl }
      | none => some (quarantineEvaluation canonicalUrl)

/-! ## Object store  (services/api/src/storage/object-store.ts)

The filesystem is an association list from absolute paths to byte lists;
SHA-256 is an explicit parameter (`sha256S` hashes the source-URL string,
`sha256B` hashes byte content, as the two uses of `sha256Hex`). -/

structure StoredFile where
  id : String
  filename : String
  ext : Option String
  sha256 : String
  size : Nat
  cached : Bool
  storage_path : String
  deriving Repr, DecidableEq

/-- A flat filesystem: path ↦ bytes. -/
abbrev FileSys : Type := List (String × List Nat)

/-- Filesystem lookup (`fs.stat` / `fs.readFile`). -/
def fsGet (fsys : FileSys) (p : String) : Option (List Nat) := mapGet fsys p

/-- Filesystem write (`fs.writeFile`). -/
def fsPut (fsys : FileSys) (p : String) (bytes : List Nat) : FileSys :=
  mapSet fsys p bytes

/-- Is the character allowed by `sanitizeId`? -/
def isSafeIdCh (c : Char) : Bool :=
  isDigitCh c || isAsciiAlpha c || (c = '.' : Bool) || (c = '_' : Bool)
    || (c = '-' : Bool)

/-- `sanitizeId`: strip unsafe characters; throw when the result is empty
or contains "..". -/
def sanitizeId (id : String) : Except String String :=
  let safe := charsToStr (id.data.filter isSafeIdCh)
  if safe = "" ∨ jsIncludes safe ".." then Except.error "Invalid file id"
  else Except.ok safe

/-- `ext.replace(/^\./, "")`: remove one leading dot. -/
def stripLeadingDot (e : String) : String :=
  match e.data with
  | '.' :: rest => charsToStr rest
  | _ => e

/-- The normalized extension (`ext ? ext.replace(/^\./, "").toLowerCase()
: ""`). -/
def normalizedExtOf (ext : Option String) : String :=
  match ext with
  | some e => if e = "" then "" else jsToLower (stripLeadingDot e)
  | none => ""

/-- The storage filename derived from the URL digest and extension. -/
def storedFilename (sha256S : String → String) (url : String)
    (ext : Option String) : String :=
  let urlHash := sha256S url
  let normalizedExt := normalizedExtOf ext
  if normalizedExt ≠ "" then urlHash ++ "." ++ normalizedExt else urlHash

/-- `storeRemoteFile(url, buffer, ext)`: key the path by the SHA-256 of
the source URL (plus normalized extension); if a file already exists at
the derived path, return it (cache hit) with hash and size recomputed
from the bytes on disk, leaving the filesystem unchanged; otherwise write
the buffer and return its hash and size. -/
def storeRemoteFile (sha256S : String → String) (sha256B : List Nat → String)
    (storageDir : String) (fsys : FileSys) (url : String) (buffer : List Nat)
    (ext : Option String) : Except String (StoredFile × FileSys) :=
  let normalizedExt := normalizedExtOf ext
  let filename := storedFilename sha256S url ext
  match sanitizeId filename with
  | Except.error e => Except.error e
  | Except.ok safeName =>
    let filePath := storageDir ++ "/" ++ safeName
    match fsGet fsys filePath with
    | some diskBytes =>
      Except.ok
        ({ id := safeName
           filename := safeName
           ext := if normalizedExt = "" then none else some normalizedExt
           sha256 := sha256B diskBytes
           size := diskBytes.length
           cached := true
           storage_path := filePath }, fsys)
    | none =>
      Except.ok
        ({ id := safeName
           filename := safeName
           ext := if normalizedExt = "" then none else some normalizedExt
           sha256 := sha256B buffer
           size := buffer.length
           cached := false
           storage_path := filePath }, fsPut fsys filePath buffer)

/-! ## Download index  (the GAR download-index module: `GarIndexRecord`,
`getGarRecord`, `setGarRecord`) -/

structure GarIndexRecord where
  stored_id : Option String
  sha256 : Option String
  size : Option Nat
  ext : Option String
  download_url : Option String
  status : String
  last_seen : Option String
  last_attempt : Option String
  error : Option String
  deriving Repr, DecidableEq

/-- The in-memory `records` map of the index file: url ↦ record. -/
abbrev GarIndex : Type := List (String × GarIndexRecord)

/-- `getGarRecord(url)`. -/
def getGarRecord (idx : GarIndex) (url : String) : Option GarIndexRecord :=
  mapGet idx url

/-- `setGarRecord(url, record)`. -/
def setGarRecord (idx : GarIndex) (url : String) (r : GarIndexRecord) :
    GarIndex :=
  mapSet idx url r

/-! ## Site connector  (the globalautoregs connector: `pickPrimaryFile`,
`buildDownloadTargets`, `shouldSkipFailed`, `downloadStoreAndExtract`,
and the file-selection step of `fetchDocument`) -/

structure GarFileLink where
  url : String
  label : Option String
  ext : Option String
  source : Option String
  deriving Repr, DecidableEq

/-- `(f.ext || "").toLowerCase()` of a link. -/
def linkExtLower (f : GarFileLink) : String := jsToLower (jsOrS f.ext "")

/-- `orderByExt`: first file with extension docx, else pdf, else pptx,
else xls, else xlsx, else the head of the list. -/
def orderByExt (list : List GarFileLink) : Option GarFileLink :=
  match list.find? (fun f => linkExtLower f = "docx") with
  | some f => some f
  | none =>
    match list.find? (fun f => linkExtLower f = "pdf") with
    | some f => some f
    | none =>
      match list.find? (fun f => linkExtLower f = "pptx") with
      | some f => some f
      | none =>
        match list.find? (fun f => linkExtLower f = "xls") with
        | some f => some f
        | none =>
          match list.find? (fun f => linkExtLower f = "xlsx") with
          | some f => some f
          | none => list.head?

/-- `pickPrimaryFile(files)`: canonical-source (GAR) candidates first,
then UNECE-mirror candidates, then anything, each ordered by extension
preference. -/
def pickPrimaryFile (files : List GarFileLink) : Option GarFileLink :=
  if files.isEmpty then none
  else
    match orderByExt (files.filter (fun f => f.source = some "GAR")) with
    | some f => some f
    | none =>
      match orderByExt (files.filter (fun f => f.source = some "UNECE")) with
      | some f => some f
      | none => orderByExt files

/-- `buildDownloadTargets(fileLinks, primary)`. -/
def buildDownloadTargets (fileLinks : List GarFileLink)
    (primary : Option GarFileLink) : List GarFileLink :=
  match primary with
  | some p => [p]
  | none =>
    match fileLinks with
    | [] => []
    | f :: _ => [f]

/-- Does some link come from the canonical source? -/
def hasGar (files : List GarFileLink) : Bool :=
  files.any (fun f => f.source = some "GAR")

/-- Does some link come from the UNECE mirror? -/
def hasUnece (files : List GarFileLink) : Bool :=
  files.any (fun f => f.source = some "UNECE")

/-- The file-selection step of `fetchDocument`: the chosen download
targets and whether the informational mirror-skip message is emitted. -/
structure FileSelection where
  targets : List GarFileLink
  uneceSkipMessage : Bool
  deriving Repr, DecidableEq

def fetchDocumentFileSelection (fileLinks : List GarFileLink) :
    FileSelection :=
  { targets := buildDownloadTargets fileLinks (pickPrimaryFile fileLinks)
    uneceSkipMessage := hasGar fileLinks && hasUnece fileLinks }

/-- `shouldSkipFailed(url, cooldownMinutes)`: skip when the record exists,
its status is "failed", its `last_attempt` parses, and strictly fewer
than `cooldownMinutes` minutes have elapsed since it.  `parseDateMs`
models `Date.parse` (`none` = `NaN`); `nowMs` models `Date.now()`;
`mkRat (nowMs - lastMs) 60000` is the exact value of the source's
`(Date.now() - last) / 60000`. -/
def shouldSkipFailed (parseDateMs : String → Option Int) (nowMs : Int)
    (idx : GarIndex) (url : String) (cooldownMinutes : Rat) : Bool :=
  if cooldownMinutes ≤ 0 then false
  else
    match getGarRecord idx url with
    | none => false
    | some r =>
      if r.status ≠ "failed" then false
      else
        match r.last_attempt with
        | none => false
        | some la =>
          match parseDateMs la with
          | none => false
          | some lastMs =>
            decide (mkRat (nowMs - lastMs) 60000 < cooldownMinutes)

/-- Outcome of `fetchBuffer` (the network), externalized. -/
inductive FetchBufferOutcome where
  | ok (buffer : List Nat)
  | err (msg : String)
  deriving Repr, DecidableEq

/-- Observable result of one `downloadStoreAndExtract` call: the error
field of the returned `GarStoredFile` (if any), the resulting index and
filesystem, whether the network fetch was invoked, and the stored-object
id (if any). -/
structure DownloadResult where
  error : Option String
  stored_id : Option String
  cachedFlag : Option Bool
  fetched : Bool
  index : GarIndex
  fsys : FileSys
  deriving Repr, DecidableEq

/-- The fetch/store/record attempt of `downloadStoreAndExtract` (its
`try`/`catch` tail): fetch the buffer, store it, record a `cached` index
entry; any thrown error records a `failed` entry instead. -/
def downloadAttempt (sha256S : String → String)
    (sha256B : List Nat → String) (storageDir : String) (nowIso : String)
    (idx : GarIndex) (fsys : FileSys) (fetchOutcome : FetchBufferOutcome)
    (file : GarFileLink) : DownloadResult :=
  match fetchOutcome with
  | FetchBufferOutcome.err msg =>
    { error := some msg, stored_id := none, cachedFlag := none
      fetched := true
      index := setGarRecord idx file.url
        { stored_id := none, sha256 := none, size := none, ext := file.ext
          download_url := none, status := "failed", last_seen := none
          last_attempt := some nowIso, error := some msg }
      fsys := fsys }
  | FetchBufferOutcome.ok buffer =>
    match storeRemoteFile sha256S sha256B storageDir fsys file.url buffer
        file.ext with
    | Except.error msg =>
      { error := some msg, stored_id := none, cachedFlag := none
        fetched := true
        index := setGarRecord idx file.url
          { stored_id := none, sha256 := none, size := none, ext := file.ext
            download_url := none, status := "failed", last_seen := none
            last_attempt := some nowIso, error := some msg }
        fsys := fsys }
    | Except.ok (stored, fsys2) =>
      { error := none, stored_id := some stored.id
        cachedFlag := some stored.cached
        fetched := true
        index := setGarRecord idx file.url
          { stored_id := some stored.id, sha256 := some stored.sha256
            size := some stored.size, ext := stored.ext
            download_url := some ("/api/files/" ++ stored.id)
            status := "cached", last_seen := some nowIso
            last_attempt := some nowIso, error := none }
        fsys := fsys2 }

/-- `loadCachedFile(file)`: if the index record references a stored
object that is still on disk, refresh the record (`status := "cached"`,
new `last_seen`) and return the stored id with the updated index;
otherwise `null`. -/
def loadCachedFile (nowIso : String) (idx : GarIndex)
    (storedFileExists : String → Bool) (file : GarFileLink) :
    Option (String × GarIndex) :=
  match getGarRecord idx file.url with
  | some r =>
    match r.stored_id with
    | some sid =>
      if storedFileExists sid then
        some (sid, setGarRecord idx file.url
          { r with status := "cached", last_seen := some nowIso })
      else none
    | none => none
  | none => none

/-- `downloadStoreAndExtract(file, context)`.  Time, hashing, the network
outcome and on-disk object existence are explicit parameters; `nowIso`
is the ISO rendering of the current time used for the index timestamps.
The cooldown gate runs first; then the cached-file short-circuit
(`loadCachedFile`); then the fetch/store/record attempt. -/
def downloadStoreAndExtract (parseDateMs : String → Option Int)
    (sha256S : String → String) (sha256B : List Nat → String)
    (storageDir : String) (nowMs : Int) (nowIso : String)
    (cooldownMinutes : Rat) (idx : GarIndex) (fsys : FileSys)
    (storedFileExists : String → Bool) (fetchOutcome : FetchBufferOutcome)
    (file : GarFileLink) : DownloadResult :=
  if shouldSkipFailed parseDateMs nowMs idx file.url cooldownMinutes then
    { error := some "cooldown_skip", stored_id := none, cachedFlag := none
      fetched := false, index := idx, fsys := fsys }
  else
    match loadCachedFile nowIso idx storedFileExists file with
    | some sidIdx =>
      { error := none
        stored_id := some sidIdx.1
        cachedFlag := some true
        fetched := false
        index := sidIdx.2
        fsys := fsys }
    | none =>
      downloadAttempt sha256S sha256B storageDir nowIso idx fsys
        fetchOutcome file

/-! ## Fetcher retry loop  (services/api/src/connectors/fetcher.ts:
`fetchWithRetry` and the non-ok check of `fetchHtml`) -/

/-- Outcome of one `fetch(url, ...)` call: a thrown transport error, or a
response with its `ok` flag and status code. -/
inductive AttemptOutcome where
  | throwErr (msg : String)
  | resp (ok : Bool) (status : Nat)
  deriving Repr, DecidableEq

structure FetchResp where
  ok : Bool
  status : Nat
  deriving Repr, DecidableEq

/-- Trace of a `fetchWithRetry` run: the returned response or thrown
error, the number of `fetch` attempts made, and the backoff sleeps (in
milliseconds, in order). -/
structure RetryTrace where
  result : Except String FetchResp
  attempts : Nat
  sleeps : List Nat
  deriving Repr

/-- Did the attempt fail (transport error or non-2xx response)? -/
def attemptFailed : AttemptOutcome → Bool
  | AttemptOutcome.throwErr _ => true
  | AttemptOutcome.resp ok _ => ¬ ok

/-- Was the attempt a thrown transport error? -/
def attemptThrew : AttemptOutcome → Bool
  | AttemptOutcome.throwErr _ => true
  | AttemptOutcome.resp _ _ => false

/-- The loop body of `fetchWithRetry`, with the outcome of attempt `n`
supplied by `outcome n`.  Fuel is `retries + 1 - attempt`; the
fuel-exhausted case is the fall-through `throw lastError` after the loop
(unreachable from the top-level entry).  A non-ok response before the
last attempt sets `lastError` and `continue`s with no sleep; a thrown
transport error before the last attempt sleeps `500 * (attempt + 1)` ms;
the last attempt returns the response as-is or rethrows. -/
def fetchWithRetryGo (outcome : Nat → AttemptOutcome) (retries : Nat) :
    Nat → Nat → Option String → RetryTrace
  | 0, _, lastError =>
    { result := Except.error (lastError.getD "Fetch failed"), attempts := 0
      sleeps := [] }
  | fuel + 1, attempt, _ =>
    match outcome attempt with
    | AttemptOutcome.resp ok status =>
      if ok = false ∧ attempt < retries then
        let t := fetchWithRetryGo outcome retries fuel (attempt + 1)
          (some ("Fetch failed (" ++ toString status ++ ")"))
        { result := t.result, attempts := t.attempts + 1, sleeps := t.sleeps }
      else
        { result := Except.ok { ok := ok, status := status }
          attempts := 1, sleeps := [] }
    | AttemptOutcome.throwErr msg =>
      if attempt < retries then
        let t := fetchWithRetryGo outcome retries fuel (attempt + 1)
          (some msg)
        { result := t.result, attempts := t.attempts + 1
          sleeps := 500 * (attempt + 1) :: t.sleeps }
      else
        { result := Except.error msg, attempts := 1, sleeps := [] }

/-- `fetchWithRetry(url, init, timeoutMs, retries)`. -/
def fetchWithRetry (outcome : Nat → AttemptOutcome) (retries : Nat) :
    RetryTrace :=
  fetchWithRetryGo outcome retries (retries + 1) 0 none

/-- The post-retry check of `fetchHtml` / `fetchBuffer`: a returned
response with `ok = false` is turned into a thrown error, so a final
failure is never swallowed. -/
def fetchResultSurfaced (r : Except String FetchResp) :
    Except String FetchResp :=
  match r with
  | Except.error e => Except.error e
  | Except.ok resp =>
    if resp.ok then Except.ok resp
    else Except.error ("Fetch failed (" ++ toString resp.status ++ ")")

/-! ## Ingestion-job routing  (services/api/src/jobs/scan.ts
`processScanJob` item loop, and the merge job's `processMergeJob` item
loop) -/

/-- A review-queue entry as built by the jobs (`id`, `created_at` and the
reviewer fields are generated metadata and elided; `payload` is the
validated item when available, otherwise the raw input). -/
structure ReviewQueueEntry where
  entity_type : String
  payloadParsed : Option RegulationItem
  payloadRaw : RawRegulationItem
  reason : String
  status : String
  deriving Repr, DecidableEq

/-- Per-item outcome of the job loops: an authoritative-store upsert or a
review-queue insert. -/
inductive ItemDecision where
  | upsert (item : RegulationItem)
  | queue (entry : ReviewQueueEntry)
  deriving Repr, DecidableEq

/-- `validation.data?.trust_tier || item.trust_tier` (enum strings are
never empty, so JS falsiness is absence). -/
def decisionTier (v : ValidationResult) (raw : RawRegulationItem) :
    Option String :=
  jsOrOS (v.data.bind (·.trust_tier)) raw.trust_tier

/-- The reason string pushed for a non-top tier:
`Trust tier ${tier || "unknown"} requires review` (JS falsy `||`, so an
absent or empty tier renders as "unknown"). -/
def tierReason (tier : Option String) : String :=
  "Trust tier " ++ jsOrS tier "unknown" ++ " requires review"

/-- The item branch shared by `processScanJob` and `processMergeJob`:
upsert iff validation succeeded with data and the effective trust tier is
`TIER_A_BINDING`; otherwise build a pending review-queue entry whose
reason joins the validation failure and/or the tier message with " | "
(`fallback` is the job-specific default reason). -/
def jobItemDecisionCore (fallback : String) (raw : RawRegulationItem)
    (v : ValidationResult) : ItemDecision :=
  let tier := decisionTier v raw
  let isHardLaw := tier = some "TIER_A_BINDING"
  match v.data with
  | some d =>
    if v.ok ∧ isHardLaw then ItemDecision.upsert d
    else
      let parts :=
        (if v.ok then [] else [jsOrS v.reason "Schema validation failed"])
          ++ (if isHardLaw then [] else [tierReason tier])
      ItemDecision.queue
        { entity_type := "RegulationItem"
          payloadParsed := some d
          payloadRaw := raw
          reason := jsOrS (some (String.intercalate " | " parts)) fallback
          status := "pending" }
  | none =>
    let parts :=
      (if v.ok then [] else [jsOrS v.reason "Schema validation failed"])
        ++ (if isHardLaw then [] else [tierReason tier])
    ItemDecision.queue
      { entity_type := "RegulationItem"
        payloadParsed := none
        payloadRaw := raw
        reason := jsOrS (some (String.intercalate " | " parts)) fallback
        status := "pending" }

def jobItemDecision (confidenceMin : Rat) (fallback : String)
    (raw : RawRegulationItem) : ItemDecision :=
  jobItemDecisionCore fallback raw (validateRegulationItem confidenceMin raw)

/-- The per-item decision of `processScanJob` (fallback reason "Unknown
validation error"). -/
def scanItemDecision (confidenceMin : Rat) (raw : RawRegulationItem) :
    ItemDecision :=
  jobItemDecision confidenceMin "Unknown validation error" raw

/-- The tier-inference preamble of the merge loop:
`if (!item.trust_tier && inferredTier) item.trust_tier = inferredTier`
(and likewise for `monitoring_stage`).  JS falsiness: an absent or
empty-string field is overwritten whenever the inferred value is
truthy. -/
def mergeFillItem (inferredTier inferredStage : Option String)
    (raw : RawRegulationItem) : RawRegulationItem :=
  { raw with
    trust_tier :=
      if !truthyS raw.trust_tier && truthyS inferredTier then inferredTier
      else raw.trust_tier
    monitoring_stage :=
      if !truthyS raw.monitoring_stage && truthyS inferredStage then
        inferredStage
      else raw.monitoring_stage }

/-- The per-item decision of `processMergeJob` (tier/stage inference,
then the shared branch with fallback reason "Invalid merge output"). -/
def mergeItemDecision (confidenceMin : Rat)
    (inferredTier inferredStage : Option String) (raw : RawRegulationItem) :
    ItemDecision :=
  jobItemDecision confidenceMin "Invalid merge output"
    (mergeFillItem inferredTier inferredStage raw)

/-- The accepted (upserted) items of the scan loop. -/
def scanAccepted (confidenceMin : Rat) (items : List RawRegulationItem) :
    List RegulationItem :=
  items.filterMap (fun raw =>
    match scanItemDecision confidenceMin raw with
    | ItemDecision.upsert d => some d
    | ItemDecision.queue _ => none)

/-- The review-queue entries of the scan loop. -/
def scanReviewQueue (confidenceMin : Rat) (items : List RawRegulationItem) :
    List ReviewQueueEntry :=
  items.filterMap (fun raw =>
    match scanItemDecision confidenceMin raw with
    | ItemDecision.upsert _ => none
    | ItemDecision.queue e => some e)

/-! ## Lineage graph builder  (the lineage module: `buildLineageGraph`,
`normalizeUrl`, `upsertNode`, `mergeMeta`, `shouldReplaceLabel`,
`resolveNodeId`)

The database reads are the builder's row-list inputs; `hashKey` (SHA-1)
and `formatRunDate` (`toLocaleDateString`) are explicit parameters.
Node/edge maps are JS `Map`s (association lists with in-place update);
a node's `meta` is a JS object: keys in insertion order, values possibly
`undefined` (`none`). -/

/-- JS whitespace characters relevant to `trim` in this codebase. -/
def isJsSpace (c : Char) : Bool :=
  (c = ' ' : Bool) || (c = '\t' : Bool) || (c = '\n' : Bool)
    || (c = '\r' : Bool)

/-- JS `s.trim()`. -/
def jsTrim (s : String) : String :=
  charsToStr (((s.data.dropWhile isJsSpace).reverse.dropWhile isJsSpace).reverse)

/-- `normalizeUrl(url)`: origin + pathname-without-trailing-slash +
search, lower-cased; an unparsable URL falls back to
`url.trim().replace(/\/$/, "").toLowerCase()`. -/
def normalizeUrl (url : String) : String :=
  match parseUrl url with
  | some u =>
    let path :=
      if jsEndsWith u.pathname "/" then jsDropRight u.pathname 1
      else u.pathname
    jsToLower (u.origin ++ path ++ u.search)
  | none =>
    let t := jsTrim url
    jsToLower (if jsEndsWith t "/" then jsDropRight t 1 else t)

structure LineageNode where
  id : String
  label : String
  type : String
  meta : List (String × Option String)
  deriving Repr, DecidableEq

structure LineageEdge where
  id : String
  source : String
  target : String
  relation : String
  deriving Repr, DecidableEq

/-- The `typePrefix` table with its `toLowerCase` fallback. -/
def typePfx (t : String) : String :=
  if t = "Run" then "run"
  else if t = "SourceDocument" then "doc"
  else if t = "RegulationItem" then "item"
  else if t = "Requirement" then "req"
  else if t = "Evidence" then "evidence"
  else jsToLower t

/-- `nodeId(prefix, id)`. -/
def nodeIdStr (pfx id : String) : String := pfx ++ ":" ++ id

/-- `mergeMeta(prev, next)`: entries of `next` with a defined non-empty
value overwrite `prev`. -/
def mergeMeta (prev next : List (String × Option String)) :
    List (String × Option String) :=
  next.foldl
    (fun acc kv =>
      match kv.2 with
      | none => acc
      | some v => if v = "" then acc else mapSet acc kv.1 (some v))
    prev

/-- `shouldReplaceLabel(existing, incoming, type)`. -/
def shouldReplaceLabel (existing incoming ty : String) : Bool :=
  if incoming = "" then false
  else
    let normalized := jsTrim existing
    (normalized = "" : Bool) || (normalized = ty : Bool)

/-- Mutable state of one `buildLineageGraph` run. -/
structure LineageState where
  nodes : List (String × LineageNode)
  edges : List (String × LineageEdge)
  nodeKeyToId : List (String × String)
  runIdToNodeId : List (String × String)
  sourceDocIdToNodeId : List (String × String)
  itemIdToNodeId : List (String × String)
  requirementIdToNodeId : List (String × String)
  deriving Repr

/-- The empty initial state. -/
def initLineageState : LineageState :=
  { nodes := [], edges := [], nodeKeyToId := [], runIdToNodeId := []
    sourceDocIdToNodeId := [], itemIdToNodeId := []
    requirementIdToNodeId := [] }

/-- `upsertNode(nodes, nodeKeyToId, type, canonicalKey, label, meta)`:
returns the (existing or new) node id together with the updated state. -/
def upsertNode (hashKey : String → String) (st : LineageState)
    (ty canonicalKey label : String) (meta : List (String × Option String)) :
    String × LineageState :=
  let key := ty ++ "|" ++ canonicalKey
  match mapGet st.nodeKeyToId key with
  | some existingId =>
    match mapGet st.nodes existingId with
    | some existing =>
      let merged := mergeMeta existing.meta meta
      let newLabel :=
        if shouldReplaceLabel existing.label label ty then label
        else existing.label
      (existingId,
        { st with
          nodes := mapSet st.nodes existingId
            ({ existing with meta := merged, label := newLabel }) })
    | none => (existingId, st)
  | none =>
    let pfx := typePfx ty
    let id := nodeIdStr pfx (hashKey key)
    (id,
      { st with
        nodeKeyToId := mapSet st.nodeKeyToId key id
        nodes := mapSet st.nodes id
          { id := id, label := label, type := ty, meta := meta } })

/-! Database rows, as seen by the builder after `rowToRun` / `rowToItem`
field mapping (nullable columns are `Option`s). -/

structure RunRow where
  id : String
  run_type : String
  started_at : String
  status : String
  deriving Repr, DecidableEq

structure DocRow where
  id : String
  url : Option String
  domain : Option String
  title : Option String
  retrieved_at : Option String
  deriving Repr, DecidableEq

structure CitationRow where
  title : Option String
  url : Option String
  deriving Repr, DecidableEq

structure ItemRow where
  id : String
  url : Option String
  title : Option String
  summary_1line : Option String
  jurisdiction : Option String
  published_date : Option String
  priority : Option String
  trust_tier : Option String
  status : Option String
  source_document_id : Option String
  citations : List CitationRow
  deriving Repr, DecidableEq

structure ReviewRow where
  entity_type : String
  status : String
  p_id : Option String
  p_url : Option String
  p_title : Option String
  p_summary_1line : Option String
  p_jurisdiction : Option String
  p_published_date : Option String
  p_priority : Option String
  p_trust_tier : Option String
  p_status : Option String
  deriving Repr, DecidableEq

structure ReqRow where
  id : String
  requirement_family : Option String
  priority : Option String
  deriving Repr, DecidableEq

structure LinkRow where
  from_type : String
  from_id : String
  to_type : String
  to_id : String
  relation : String
  deriving Repr, DecidableEq

/-- Run-node step of the builder. -/
def addRunNode (formatRunDate : String → String) (st : LineageState)
    (run : RunRow) : LineageState :=
  let id := nodeIdStr "run" run.id
  { st with
    nodes := mapSet st.nodes id
      { id := id
        label := jsToUpper run.run_type ++ " - " ++ formatRunDate run.started_at
        type := "Run"
        meta := [("status", some run.status)] }
    runIdToNodeId := mapSet st.runIdToNodeId run.id id }

/-- Canonical key of a source-document row. -/
def docCanonicalKey (doc : DocRow) : String :=
  if truthyS doc.url then normalizeUrl (doc.url.getD "")
  else
    jsOrS doc.domain "" ++ "|" ++ jsOrS doc.title "" ++ "|"
      ++ jsTake (jsOrS doc.retrieved_at "") 10

/-- Document step of the builder. -/
def addDocNode (hashKey : String → String) (st : LineageState)
    (doc : DocRow) : LineageState :=
  let key := docCanonicalKey doc
  let r := upsertNode hashKey st "SourceDocument" key
    (jsOrS doc.title (jsOrS doc.domain "SourceDocument"))
    [("url", doc.url), ("domain", doc.domain)]
  { r.2 with
    sourceDocIdToNodeId := mapSet r.2.sourceDocIdToNodeId doc.id r.1 }

/-- Canonical key of a regulation-item row. -/
def itemCanonicalKey (item : ItemRow) : String :=
  if truthyS item.url then normalizeUrl (item.url.getD "")
  else
    jsOrS item.title (jsOrS item.summary_1line "") ++ "|"
      ++ jsOrS item.jurisdiction "" ++ "|" ++ jsOrS item.published_date ""

/-- Item step of the builder. -/
def addItemNode (hashKey : String → String) (st : LineageState)
    (item : ItemRow) : LineageState :=
  let key := itemCanonicalKey item
  let r := upsertNode hashKey st "RegulationItem" key
    (jsOrS item.title (jsOrS item.summary_1line "RegulationItem"))
    [("jurisdiction", item.jurisdiction), ("priority", item.priority),
     ("trust_tier", item.trust_tier), ("status", item.status)]
  { r.2 with itemIdToNodeId := mapSet r.2.itemIdToNodeId item.id r.1 }

/-- Review-queue step of the builder. -/
def addReviewNode (hashKey : String → String) (st : LineageState)
    (row : ReviewRow) : LineageState :=
  if row.entity_type ≠ "RegulationItem" then st
  else
    match row.p_id with
    | none => st
    | some pid =>
      if pid = "" then st
      else
        let key :=
          if truthyS row.p_url then normalizeUrl (row.p_url.getD "")
          else
            jsOrS row.p_title (jsOrS row.p_summary_1line "") ++ "|"
              ++ jsOrS row.p_jurisdiction "" ++ "|"
              ++ jsOrS row.p_published_date ""
        let r := upsertNode hashKey st "RegulationItem" key
          (jsOrS row.p_title (jsOrS row.p_summary_1line "RegulationItem"))
          [("jurisdiction", row.p_jurisdiction),
           ("priority", row.p_priority),
           ("trust_tier", row.p_trust_tier),
           ("status", row.p_status),
           ("review_status", some row.status)]
        { r.2 with itemIdToNodeId := mapSet r.2.itemIdToNodeId pid r.1 }

/-- Requirement step of the builder. -/
def addReqNode (hashKey : String → String) (st : LineageState)
    (req : ReqRow) : LineageState :=
  let key := jsOrS req.requirement_family req.id
  let r := upsertNode hashKey st "Requirement" key
    (jsOrS req.requirement_family "Requirement")
    [("priority", req.priority)]
  { r.2 with
    requirementIdToNodeId := mapSet r.2.requirementIdToNodeId req.id r.1 }

/-- `resolveNodeId(type, id, runMap, docMap, itemMap, reqMap, prefix)`. -/
def resolveNodeId (st : LineageState) (ty id pfx : String) : String :=
  if ty = "Run" then (mapGet st.runIdToNodeId id).getD (nodeIdStr pfx id)
  else if ty = "SourceDocument" then
    (mapGet st.sourceDocIdToNodeId id).getD (nodeIdStr pfx id)
  else if ty = "RegulationItem" then
    (mapGet st.itemIdToNodeId id).getD (nodeIdStr pfx id)
  else if ty = "Requirement" then
    (mapGet st.requirementIdToNodeId id).getD (nodeIdStr pfx id)
  else nodeIdStr pfx id

/-- Edge-map insertion under the `source__relation__target` key. -/
def setEdge (st : LineageState) (source relation target : String) :
    LineageState :=
  let id := source ++ "__" ++ relation ++ "__" ++ target
  { st with
    edges := mapSet st.edges id
      ({ id := id, source := source, target := target, relation := relation }) }

/-- Stored-link step of the builder: resolve endpoints, create
placeholder nodes for unresolved endpoints, insert the edge. -/
def addLinkEdge (st : LineageState) (link : LinkRow) : LineageState :=
  let fromPfx := typePfx link.from_type
  let toPfx := typePfx link.to_type
  let source := resolveNodeId st link.from_type link.from_id fromPfx
  let target := resolveNodeId st link.to_type link.to_id toPfx
  let st1 :=
    if mapHas st.nodes source then st
    else
      { st with
        nodes := mapSet st.nodes source
          ({ id := source, label := link.from_type, type := link.from_type
             meta := [] }) }
  let st2 :=
    if mapHas st1.nodes target then st1
    else
      { st1 with
        nodes := mapSet st1.nodes target
          ({ id := target, label := link.to_type, type := link.to_type
             meta := [] }) }
  setEdge st2 source link.relation target

/-- One citation of the implicit `supported_by` loop. -/
def addCitationEdge (hashKey : String → String) (item : ItemRow)
    (st : LineageState) (ic : Nat × CitationRow) : LineageState :=
  let citation := ic.2
  let index := ic.1
  let evidenceKey :=
    if truthyS citation.url then normalizeUrl (citation.url.getD "")
    else jsOrS citation.title (item.id ++ "-" ++ toString index)
  let r := upsertNode hashKey st "Evidence" evidenceKey
    (jsOrS citation.title (jsOrS citation.url "Evidence"))
    [("url", citation.url)]
  let source :=
    (mapGet r.2.itemIdToNodeId item.id).getD (nodeIdStr "item" item.id)
  setEdge r.2 source "supported_by" r.1

/-- Implicit-edge step of the builder (`extracted_from` from the item's
`source_document_id`, `supported_by` per evidence citation). -/
def addImplicitEdges (hashKey : String → String) (st : LineageState)
    (item : ItemRow) : LineageState :=
  let st1 :=
    match item.source_document_id with
    | some sdid =>
      if sdid = "" then st
      else
        let source :=
          (mapGet st.sourceDocIdToNodeId sdid).getD (nodeIdStr "doc" sdid)
        let target :=
          (mapGet st.itemIdToNodeId item.id).getD (nodeIdStr "item" item.id)
        setEdge st source "extracted_from" target
    | none => st
  if item.citations.length = 0 then st1
  else item.citations.enum.foldl (addCitationEdge hashKey item) st1

/-- The result type of `buildLineageGraph`. -/
structure LineageGraph where
  nodes : List LineageNode
  edges : List LineageEdge
  deriving Repr, DecidableEq

/-- The full builder state after all stages. -/
def buildLineageState (hashKey : String → String)
    (formatRunDate : String → String) (runs : List RunRow)
    (docs : List DocRow) (items : List ItemRow) (reviews : List ReviewRow)
    (reqs : List ReqRow) (links : List LinkRow) : LineageState :=
  let st1 := runs.foldl (addRunNode formatRunDate) initLineageState
  let st2 := docs.foldl (addDocNode hashKey) st1
  let st3 := items.foldl (addItemNode hashKey) st2
  let st4 := reviews.foldl (addReviewNode hashKey) st3
  let st5 := reqs.foldl (addReqNode hashKey) st4
  let st6 := links.foldl addLinkEdge st5
  items.foldl (addImplicitEdges hashKey) st6

/-- `buildLineageGraph()`: node and edge values in insertion order. -/
def buildLineageGraph (hashKey : String → String)
    (formatRunDate : String → String) (runs : List RunRow)
    (docs : List DocRow) (items : List ItemRow) (reviews : List ReviewRow)
    (reqs : List ReqRow) (links : List LinkRow) : LineageGraph :=
  let st := buildLineageState hashKey formatRunDate runs docs items reviews
    reqs links
  { nodes := mapValues st.nodes, edges := mapValues st.edges }

/-! ## Shared lemmas about the JS `Map` model -/

/-- The policy used by the C2 witness: no profiles, no tier domains. -/
def c2wPolicy : PolicyConfig :=
  { canonicalize := { strip_utm_params := true
                      normalize_trailing_slash := true }
    tiers := []
    profiles := [] }

/-- The policy used by the C10 witness: one binding tier that may write
main, one profile for unece.org assigned to it. -/
def c10wPolicy : PolicyConfig :=
  { canonicalize := { strip_utm_params := true
                      normalize_trailing_slash := true }
    tiers := [("TIER_A_BINDING",
      { allow_auto_extract := some true, allow_write_main := some true
        route := some "main", domains := some ["unece.org"] })]
    profiles := [{ id := "unece-main", domain := "unece.org", path := "/"
                   required_query_params := none, tier := "TIER_A_BINDING"
                   stage := "Official", requires_review := none }] }

/-- The evaluation the C10 witness policy produces. -/
def c10wEval : SourceEvaluation :=
  { tier := "TIER_A_BINDING", stage := "Official"
    profile_id := some "unece-main", requires_review := false
    route := "main", allow_auto_extract := true, allow_write_main := true
    reason := none, canonical_url := "https://unece.org/doc" }

/-- A concrete raw item passing every check, with confidence exactly at
the minimum 0.7. -/
def c5wRaw : RawRegulationItem :=
  { id := "item-1", jurisdiction := "EU", source_org := "UNECE"
    source_type := "regulation", title := "Test regulation"
    summary_1line := "A test regulation item"
    url := "https://unece.org/doc/1", published_date := none
    retrieved_at := "2024-01-01T00:00:00Z", effective_date := none
    status := "adopted", topics := some ["ADAS"], impacted_areas := none
    engineering_actions := none
    evidence := { raw_file_uri := none, text_snapshot_uri := none
                  citations := some [{ title := "WP29 session report"
                                       url := "https://unece.org/doc/1"
                                       snippet := none }] }
    confidence := mkRat 7 10, notes := none, priority := "P0"
    source_document_id := none, trust_tier := some "TIER_A_BINDING"
    monitoring_stage := none, source_profile_id := none }

/-- A concrete valid item with tier B and confidence 0.95. -/
def c3wRaw : RawRegulationItem :=
  { c5wRaw with confidence := mkRat 95 100
                trust_tier := some "TIER_B_OFFICIAL_SIGNAL" }

/-- Some classification field of the raw item lies outside its closed
enumeration. -/
def classificationOutsideEnum (raw : RawRegulationItem) : Bool :=
  !(JURISDICTIONS.contains raw.jurisdiction)
    || !(SOURCE_TYPES.contains raw.source_type)
    || !(ITEM_STATUSES.contains raw.status)
    || !((raw.topics.getD []).all TOPICS.contains)
    || !((raw.impacted_areas.getD []).all IMPACTED_AREAS.contains)
    || !(PRIORITIES.contains raw.priority)
    || optionViolates (fun t => TRUST_TIERS.contains t) raw.trust_tier
    || optionViolates (fun m => MONITORING_STAGES.contains m)
        raw.monitoring_stage

/-- A concrete schema-valid item whose evidence citation list is empty. -/
def c1wRaw : RawRegulationItem :=
  { c5wRaw with
    evidence := { raw_file_uri := none, text_snapshot_uri := none
                  citations := some [] } }

/-- An otherwise valid item carrying the out-of-enumeration (but JS
falsy) trust tier "" — the C1 counterexample input. -/
def c1cRaw : RawRegulationItem :=
  { c5wRaw with trust_tier := some "" }

/-- The hash stand-ins of the C4 witness (any functions work for the
theorem; these are concrete so the run evaluates). -/
def c4wHashS (s : String) : String := "u" ++ toString s.length

def c4wHashB (b : List Nat) : String := "b" ++ toString b.length

/-- First-call result of the C4 witness. -/
def c4wR1 : StoredFile :=
  { id := "u19.pdf", filename := "u19.pdf", ext := some "pdf"
    sha256 := "b3", size := 3, cached := false
    storage_path := "objects/u19.pdf" }

/-- Second-call result of the C4 witness. -/
def c4wR2 : StoredFile :=
  { id := "u19.pdf", filename := "u19.pdf", ext := some "pdf"
    sha256 := "b3", size := 3, cached := true
    storage_path := "objects/u19.pdf" }

/-- Preference rank of a link's extension (docx best). -/
def extRank (f : GarFileLink) : Nat :=
  if linkExtLower f = "docx" then 0
  else if linkExtLower f = "pdf" then 1
  else if linkExtLower f = "pptx" then 2
  else if linkExtLower f = "xls" then 3
  else if linkExtLower f = "xlsx" then 4
  else 5

/-- The file links of the C8 witness: a GAR pdf, a UNECE docx mirror. -/
def c8wFiles : List GarFileLink :=
  [{ url := "https://globalautoregs.com/files/1.pdf", label := some "pdf"
     ext := some "pdf", source := some "GAR" },
   { url := "https://unece.org/files/1.docx", label := some "docx"
     ext := some "docx", source := some "UNECE" }]

/-- Did the retry loop end without a successful (2xx) response? -/
def respFailed : Except String FetchResp → Bool
  | Except.error _ => true
  | Except.ok r => !r.ok

/-- The attempt outcomes of the C9 counterexample: a 500 response first,
then success. -/
def c9cOutcome (n : Nat) : AttemptOutcome :=
  if n = 0 then AttemptOutcome.resp false 500 else AttemptOutcome.resp true 200

/-- The all-transport-failure outcomes of the C9 witness. -/
def c9wOutcome (_ : Nat) : AttemptOutcome := AttemptOutcome.throwErr "boom"

/-- The cached index record of the C6 counterexample. -/
def c6cRec : GarIndexRecord :=
  { stored_id := some "abc123.pdf", sha256 := some "h3", size := some 3
    ext := some "pdf", download_url := some "/api/files/abc123.pdf"
    status := "cached", last_seen := some "2024-01-01T00:00:00Z"
    last_attempt := some "2024-01-01T00:00:00Z", error := none }

/-- The index of the C6 counterexample. -/
def c6cIdx : GarIndex := [("https://globalautoregs.com/files/1.pdf", c6cRec)]

/-- The file link of the C6 counterexample. -/
def c6cFile : GarFileLink :=
  { url := "https://globalautoregs.com/files/1.pdf", label := none
    ext := some "pdf", source := some "GAR" }

/-- A `Date.parse` stand-in for the C6 counterexample. -/
def c6cParseDate (_ : String) : Option Int := some 0

/-- The failed index record of the C6 witness. -/
def c6wRec : GarIndexRecord :=
  { stored_id := none, sha256 := none, size := none, ext := some "pdf"
    download_url := none, status := "failed", last_seen := none
    last_attempt := some "t0", error := some "boom" }

/-- The index of the C6 witness. -/
def c6wIdx : GarIndex := [("https://globalautoregs.com/files/2.pdf", c6wRec)]

/-- The file link of the C6 witness. -/
def c6wFile : GarFileLink :=
  { url := "https://globalautoregs.com/files/2.pdf", label := none
    ext := some "pdf", source := some "GAR" }

/-- A `Date.parse` stand-in for the C6 witness. -/
def c6wParseDate (s : String) : Option Int :=
  if s = "t0" then some 0 else none

/-- The `source__relation__target` key string of an edge. -/
def edgeEnc (e : LineageEdge) : String :=
  e.source ++ "__" ++ e.relation ++ "__" ++ e.target

/-- Well-formedness of the edge map: unique keys, each key the encoding
of its edge. -/
def EdgesWF (m : List (String × LineageEdge)) : Prop :=
  (m.map (·.1)).Nodup ∧ ∀ p ∈ m, p.1 = edgeEnc p.2

/-- UTM-tagged document row of the C7 counterexample. -/
def c7cDocA : DocRow :=
  { id := "docA", url := some "https://example.com/page?utm_source=news"
    domain := some "example.com", title := some "Page"
    retrieved_at := some "2024-01-01T00:00:00Z" }

/-- Untagged document row of the C7 counterexample. -/
def c7cDocB : DocRow :=
  { id := "docB", url := some "https://example.com/page"
    domain := some "example.com", title := some "Page"
    retrieved_at := some "2024-01-02T00:00:00Z" }

/-- Trailing-slash document row of the C7 witness. -/
def c7wDocA : DocRow :=
  { id := "docA", url := some "https://example.com/page/"
    domain := some "example.com", title := some "Page"
    retrieved_at := some "2024-01-01T00:00:00Z" }

/-- Slash-free document row of the C7 witness. -/
def c7wDocB : DocRow :=
  { id := "docB", url := some "https://example.com/page"
    domain := some "example.com", title := some "Page"
    retrieved_at := some "2024-01-02T00:00:00Z" }

/-- Trailing-slash regulation-item row of the C7 witness. -/
def c7wItemA : ItemRow :=
  { id := "itemA", url := some "https://example.com/reg/"
    title := some "Reg", summary_1line := none, jurisdiction := some "EU"
    published_date := none, priority := none, trust_tier := none
    status := none, source_document_id := none, citations := [] }

/-- Slash-free regulation-item row of the C7 witness. -/
def c7wItemB : ItemRow :=
  { id := "itemB", url := some "https://example.com/reg"
    title := some "Reg", summary_1line := none, jurisdiction := some "EU"
    published_date := none, priority := none, trust_tier := none
    status := none, source_document_id := none, citations := [] }

theorem mapGet_mapSet_self {α : Type} (m : List (String × α)) (k : String)
    (v : α) : mapGet (mapSet m k v) k = some v := by
  induction m with
  | nil => simp [mapSet, mapGet]
  | cons p rest ih =>
    by_cases h : p.1 = k
    · simp [mapSet, mapGet, h]
    · simp [mapSet, mapGet, h, ih]


theorem mapGet_mapSet_ne {α : Type} (m : List (String × α)) (k k2 : String)
    (v : α) (hne : k2 ≠ k) : mapGet (mapSet m k v) k2 = mapGet m k2 := by
  induction m with
  | nil =>
    simp only [mapSet, mapGet]
    rw [if_neg (fun hh => hne hh.symm)]
  | cons p rest ih =>
    by_cases h : p.1 = k
    · subst h
      have hk2 : ¬ p.1 = k2 := fun hh => hne hh.symm
      simp [mapSet, mapGet, hk2]
    · by_cases h2 : p.1 = k2
      · simp [mapSet, mapGet, h, h2, hne]
      · simp [mapSet, mapGet, h, h2, ih]

theorem mapSet_keys_mem {α : Type} (m : List (String × α)) (k x : String)
    (v : α) (hx : x ∈ (mapSet m k v).map (·.1)) :
    x ∈ m.map (·.1) ∨ x = k := by
  induction m with
  | nil => simpa [mapSet] using hx
  | cons p rest ih =>
    by_cases h : p.1 = k
    · simp only [mapSet, h, if_pos] at hx
      simp only [List.map_cons, List.mem_cons] at hx ⊢
      rcases hx with h1 | h1
      · exact Or.inr h1
      · exact Or.inl (Or.inr h1)
    · simp only [mapSet, h, if_neg, not_false_iff] at hx
      simp only [List.map_cons, List.mem_cons] at hx ⊢
      rcases hx with h1 | h1
      · exact Or.inl (Or.inl h1)
      · rcases ih h1 with h2 | h2
        · exact Or.inl (Or.inr h2)
        · exact Or.inr h2

theorem mapSet_keys_nodup {α : Type} (m : List (String × α)) (k : String)
    (v : α) (h : (m.map (·.1)).Nodup) : ((mapSet m k v).map (·.1)).Nodup := by
  induction m with
  | nil => simp [mapSet]
  | cons p rest ih =>
    simp only [List.map_cons, List.nodup_cons] at h
    by_cases hp : p.1 = k
    · subst hp
      simpa [mapSet, List.nodup_cons] using h
    · have hnd := ih h.2
      simp only [mapSet, hp, if_neg, not_false_iff, List.map_cons,
        List.nodup_cons]
      refine ⟨fun hx => ?_, hnd⟩
      rcases mapSet_keys_mem rest k p.1 v hx with h2 | h2
      · exact h.1 h2
      · exact hp h2

theorem mapSet_entries {α : Type} (P : String × α → Prop) :
    ∀ (m : List (String × α)) (k : String) (v : α),
      (∀ p ∈ m, P p) → P (k, v) → ∀ p ∈ mapSet m k v, P p := by
  intro m
  induction m with
  | nil =>
    intro k v _ hv p hp
    simp only [mapSet, List.mem_singleton] at hp
    exact hp ▸ hv
  | cons q rest ih =>
    intro k v hm hv p hp
    by_cases hq : q.1 = k
    · simp only [mapSet, hq, if_pos, List.mem_cons] at hp
      rcases hp with h1 | h1
      · exact h1 ▸ hv
      · exact hm p (List.mem_cons_of_mem q h1)
    · simp only [mapSet, hq, if_neg, not_false_iff, List.mem_cons] at hp
      rcases hp with h1 | h1
      · exact h1 ▸ hm q (List.mem_cons_self q rest)
      · exact ih k v (fun r hr => hm r (List.mem_cons_of_mem q hr)) hv p h1

/-- Invariant preservation along a left fold. -/
theorem foldlPreserve {α β : Type} (P : α → Prop) (f : α → β → α)
    (h : ∀ a b, P a → P (f a b)) :
    ∀ (l : List β) (a : α), P a → P (l.foldl f a) := by
  intro l
  induction l with
  | nil => intro a ha; exact ha
  | cons b rest ih => intro a ha; exact ih (f a b) (h a b ha)

/-! ## Claim C2 — default-deny evaluation of unmatched URLs -/

/-- C2: a URL whose canonical form parses but matches no policy profile
and whose domain matches no entry of the domain-to-tier table evaluates
to `TIER_D_QUARANTINE`, `requires_review = true`,
`allow_write_main = false`, and route "review_queue" — never "main". -/
theorem claim_C2_default_deny (policy : PolicyConfig) (url : String)
    (u : ParsedUrl) (hu : parseUrl (canonicalizeUrl policy url) = some u)
    (hprof : policy.profiles.find? (fun p => matchesProfile p u) = none)
    (htier :
      findTierForDomain (jsReplaceFirst u.host "www." "") policy = none) :
    evaluateSource policy url =
        some (quarantineEvaluation (canonicalizeUrl policy url))
      ∧ (quarantineEvaluation (canonicalizeUrl policy url)).tier
          = "TIER_D_QUARANTINE"
      ∧ (quarantineEvaluation (canonicalizeUrl policy url)).requires_review
          = true
      ∧ (quarantineEvaluation (canonicalizeUrl policy url)).allow_write_main
          = false
      ∧ (quarantineEvaluation (canonicalizeUrl policy url)).route
          = "review_queue"
      ∧ (quarantineEvaluation (canonicalizeUrl policy url)).route
          ≠ "main" := by
  refine ⟨?_, rfl, rfl, rfl, rfl, by simp [quarantineEvaluation]⟩
  simp only [evaluateSource, hu, hprof, htier]

/-- Witness for C2 at a concrete unknown URL. -/
theorem claim_C2_witness :
    evaluateSource c2wPolicy "https://unknown.example.com/x"
      = some (quarantineEvaluation "https://unknown.example.com/x") := by
  have h := claim_C2_default_deny c2wPolicy "https://unknown.example.com/x"
    { scheme := "https", host := "unknown.example.com", pathname := "/x"
      search := "" } (by decide) (by rfl) (by rfl)
  have hc : canonicalizeUrl c2wPolicy "https://unknown.example.com/x"
      = "https://unknown.example.com/x" := by decide
  rw [hc] at h
  exact h.1

/-! ## Claim C10 — route "main" implies `allow_write_main` -/

/-- C10: in every branch of `evaluateSource` (profile match, domain-tier
fallback, unrecognized default) the returned evaluation has route "main"
only if `allow_write_main` is true. -/
theorem claim_C10_route_main_requires_write (policy : PolicyConfig)
    (url : String) (ev : SourceEvaluation)
    (h : evaluateSource policy url = some ev) (hroute : ev.route = "main") :
    ev.allow_write_main = true := by
  simp only [evaluateSource] at h
  split at h
  · exact absurd h (by simp)
  · split at h
    · simp only [Option.some.injEq] at h
      subst h
      simp only at hroute ⊢
      split at hroute
      · exact absurd hroute (by decide)
      · rename_i hcond
        push_neg at hcond
        simpa using hcond.2
    · split at h
      · simp only [Option.some.injEq] at h
        subst h
        simp only at hroute ⊢
        split at hroute
        · rename_i hcond; simpa using hcond
        · exact absurd hroute (by decide)
      · simp only [Option.some.injEq] at h
        subst h
        exact absurd hroute (by simp [quarantineEvaluation])

/-- Witness for C10: a concrete evaluation routed to "main" indeed has
`allow_write_main = true`. -/
theorem claim_C10_witness :
    evaluateSource c10wPolicy "https://unece.org/doc" = some c10wEval
      ∧ c10wEval.route = "main" ∧ c10wEval.allow_write_main = true :=
  ⟨by decide, rfl,
    claim_C10_route_main_requires_write c10wPolicy "https://unece.org/doc"
      c10wEval (by decide) rfl⟩

/-! ## Claim C5 — validator check order and short-circuit -/

/-- C5: `validateRegulationItem` checks, in order: (1) schema/enum
compliance, (2) permitted source domain, (3) at least one evidence
citation, (4) confidence at or above the configured minimum; it returns
`ok = false` with the first failed check's reason, and an item passing
all four checks — including one with confidence exactly the minimum —
yields `ok = true` with the parsed item.  (The function is total by
construction, modelling that the source never throws.) -/
theorem claim_C5_validator_order (cmin : Rat) (raw : RawRegulationItem) :
    (regulationItemSchemaOk raw = false →
      validateRegulationItem cmin raw =
        { ok := false, data := none
          reason := some "Schema validation failed" })
  ∧ (regulationItemSchemaOk raw = true →
      isAllowedDomain raw.url = false →
      validateRegulationItem cmin raw =
        { ok := false, data := none
          reason := some "Source domain not allowed" })
  ∧ (regulationItemSchemaOk raw = true →
      isAllowedDomain raw.url = true →
      raw.evidence.citations.getD [] = [] →
      validateRegulationItem cmin raw =
        { ok := false, data := none
          reason := some "Missing evidence citations" })
  ∧ (regulationItemSchemaOk raw = true →
      isAllowedDomain raw.url = true →
      raw.evidence.citations.getD [] ≠ [] →
      raw.confidence < cmin →
      validateRegulationItem cmin raw =
        { ok := false, data := none
          reason := some (confidenceReason cmin) })
  ∧ (regulationItemSchemaOk raw = true →
      isAllowedDomain raw.url = true →
      raw.evidence.citations.getD [] ≠ [] →
      cmin ≤ raw.confidence →
      validateRegulationItem cmin raw =
        { ok := true, data := some (parseRegulationItem raw)
          reason := none }) := by
  refine ⟨?_, ?_, ?_, ?_, ?_⟩
  · intro h1
    simp [validateRegulationItem, h1]
  · intro h1 h2
    simp [validateRegulationItem, parseRegulationItem, h1, h2]
  · intro h1 h2 h3
    simp [validateRegulationItem, parseRegulationItem, h1, h2, h3]
  · intro h1 h2 h3 h4
    simp [validateRegulationItem, parseRegulationItem, h1, h2, h3, h4]
  · intro h1 h2 h3 h4
    simp [validateRegulationItem, parseRegulationItem, h1, h2, h3,
      not_lt.mpr h4]

/-- Witness for C5: the boundary item (confidence = minimum) validates
successfully with the parsed item as data. -/
theorem claim_C5_witness :
    validateRegulationItem (mkRat 7 10) c5wRaw =
      { ok := true, data := some (parseRegulationItem c5wRaw)
        reason := none } :=
  (claim_C5_validator_order (mkRat 7 10) c5wRaw).2.2.2.2 (by decide)
    (by decide) (by decide) (by decide)

/-! ## Shared lemmas about the validator and the job branch -/

/-- Every validator outcome is either the success record carrying the
parsed item or a failure record with no data and some reason. -/
theorem validateRegulationItem_cases (cmin : Rat) (raw : RawRegulationItem) :
    validateRegulationItem cmin raw =
        { ok := true, data := some (parseRegulationItem raw), reason := none }
  ∨ ∃ r, validateRegulationItem cmin raw =
        { ok := false, data := none, reason := some r } := by
  simp only [validateRegulationItem]
  split
  · exact Or.inr ⟨"Schema validation failed", rfl⟩
  · split
    · exact Or.inr ⟨"Source domain not allowed", rfl⟩
    · split
      · exact Or.inr ⟨"Missing evidence citations", rfl⟩
      · split
        · exact Or.inr ⟨confidenceReason cmin, rfl⟩
        · exact Or.inl rfl

/-- `jsOrOS a a = a`. -/
theorem jsOrOS_self (a : Option String) : jsOrOS a a = a := by
  cases a with
  | none => rfl
  | some s =>
    simp only [jsOrOS]
    split <;> rfl

/-- `parseRegulationItem` keeps the raw trust tier. -/
theorem parse_trust_tier (raw : RawRegulationItem) :
    (parseRegulationItem raw).trust_tier = raw.trust_tier := rfl

/-- `jsOrS (some s) fb` is non-empty whenever the fallback is. -/
theorem jsOrS_some_ne_empty (s fb : String) (hfb : fb ≠ "") :
    jsOrS (some s) fb ≠ "" := by
  intro hcontra
  simp only [jsOrS] at hcontra
  split at hcontra
  · exact hfb hcontra
  · rename_i h
    exact h hcontra

/-- A failed validation always queues the item with pending status and a
non-empty reason (for any non-empty fallback reason). -/
theorem jobItemDecision_not_ok (cmin : Rat) (fb : String)
    (raw : RawRegulationItem) (hfb : fb ≠ "")
    (hok : (validateRegulationItem cmin raw).ok = false) :
    ∃ e, jobItemDecision cmin fb raw = ItemDecision.queue e
      ∧ e.status = "pending" ∧ e.reason ≠ ""
      ∧ e.entity_type = "RegulationItem" := by
  rcases validateRegulationItem_cases cmin raw with hv | ⟨r, hv⟩
  · rw [hv] at hok; cases hok
  · rw [jobItemDecision, hv]
    exact ⟨_, rfl, rfl, jsOrS_some_ne_empty _ fb hfb, rfl⟩

/-- A successful validation of an item whose trust tier is not
`TIER_A_BINDING` is queued (never upserted), with exactly the tier
reason. -/
theorem jobItemDecision_ok_not_hard (cmin : Rat) (fb : String)
    (raw : RawRegulationItem)
    (hok : (validateRegulationItem cmin raw).ok = true)
    (htier : raw.trust_tier ≠ some "TIER_A_BINDING") :
    jobItemDecision cmin fb raw = ItemDecision.queue
      { entity_type := "RegulationItem"
        payloadParsed := some (parseRegulationItem raw)
        payloadRaw := raw
        reason := tierReason raw.trust_tier
        status := "pending" } := by
  rcases validateRegulationItem_cases cmin raw with hv | ⟨r, hv⟩
  · rw [jobItemDecision, hv]
    have htier2 : decisionTier
        { ok := true, data := some (parseRegulationItem raw), reason := none }
        raw = raw.trust_tier := by
      rw [decisionTier]
      exact jsOrOS_self raw.trust_tier
    simp only [jobItemDecisionCore, htier2]
    rw [if_neg (fun hc => htier hc.2)]
    have hne : tierReason raw.trust_tier ≠ "" := by
      simp only [tierReason]
      intro hcontra
      have hdat := congrArg String.data hcontra
      simp [String.data_append] at hdat
    simp only [htier, if_true, if_false, ite_true, ite_false,
      List.nil_append]
    have hsingle : String.intercalate " | " [tierReason raw.trust_tier]
        = tierReason raw.trust_tier := rfl
    rw [hsingle]
    simp [jsOrS, hne]
  · rw [hv] at hok; cases hok

/-! ## Claim C3 — the tier promotion gate -/

/-- C3: an item whose validation succeeds but whose trust tier is not
`TIER_A_BINDING` is never upserted by the scan or merge job; it is
inserted into the review queue, pending, with the reason naming the tier
("Trust tier <tier> requires review") — confidence plays no further
role.  (For the merge job the processed item is the one after the
tier/stage inference preamble.) -/
theorem claim_C3_tier_gate (cmin : Rat) (raw rawM : RawRegulationItem)
    (tInf sInf : Option String)
    (hok : (validateRegulationItem cmin raw).ok = true)
    (htier : raw.trust_tier ≠ some "TIER_A_BINDING")
    (hokM :
      (validateRegulationItem cmin (mergeFillItem tInf sInf rawM)).ok = true)
    (htierM :
      (mergeFillItem tInf sInf rawM).trust_tier ≠ some "TIER_A_BINDING") :
    (∀ d, scanItemDecision cmin raw ≠ ItemDecision.upsert d)
  ∧ scanItemDecision cmin raw = ItemDecision.queue
      { entity_type := "RegulationItem"
        payloadParsed := some (parseRegulationItem raw)
        payloadRaw := raw
        reason := tierReason raw.trust_tier
        status := "pending" }
  ∧ (∀ t, raw.trust_tier = some t →
      tierReason raw.trust_tier = "Trust tier " ++ t ++ " requires review")
  ∧ (∀ d, mergeItemDecision cmin tInf sInf rawM ≠ ItemDecision.upsert d)
  ∧ mergeItemDecision cmin tInf sInf rawM = ItemDecision.queue
      { entity_type := "RegulationItem"
        payloadParsed :=
          some (parseRegulationItem (mergeFillItem tInf sInf rawM))
        payloadRaw := mergeFillItem tInf sInf rawM
        reason := tierReason (mergeFillItem tInf sInf rawM).trust_tier
        status := "pending" } := by
  have hscan := jobItemDecision_ok_not_hard cmin "Unknown validation error"
    raw hok htier
  have hmerge := jobItemDecision_ok_not_hard cmin "Invalid merge output"
    (mergeFillItem tInf sInf rawM) hokM htierM
  refine ⟨?_, hscan, ?_, ?_, hmerge⟩
  · intro d hcontra
    rw [scanItemDecision] at hcontra
    rw [hscan] at hcontra
    cases hcontra
  · intro t ht
    have hschema : regulationItemSchemaOk raw = true := by
      by_contra hs
      rw [Bool.not_eq_true] at hs
      simp [validateRegulationItem, hs] at hok
    simp only [regulationItemSchemaOk, Bool.and_eq_true] at hschema
    have htt : optionHolds (fun t2 => TRUST_TIERS.contains t2)
        raw.trust_tier = true := hschema.1.2
    rw [ht] at htt
    have htc : TRUST_TIERS.contains t = true := htt
    have htne : t ≠ "" := by
      intro he
      subst he
      rw [show TRUST_TIERS.contains "" = false from by decide] at htc
      cases htc
    rw [ht]
    show "Trust tier " ++ jsOrS (some t) "unknown" ++ " requires review"
      = "Trust tier " ++ t ++ " requires review"
    simp only [jsOrS]
    rw [if_neg htne]
  · intro d hcontra
    rw [mergeItemDecision] at hcontra
    rw [hmerge] at hcontra
    cases hcontra

/-- Witness for C3: the tier-B item with confidence 0.95 is queued with
the tier reason by both jobs. -/
theorem claim_C3_witness :
    scanItemDecision (mkRat 7 10) c3wRaw = ItemDecision.queue
      { entity_type := "RegulationItem"
        payloadParsed := some (parseRegulationItem c3wRaw)
        payloadRaw := c3wRaw
        reason := tierReason c3wRaw.trust_tier
        status := "pending" }
    ∧ tierReason c3wRaw.trust_tier
        = "Trust tier TIER_B_OFFICIAL_SIGNAL requires review" := by
  have h := claim_C3_tier_gate (mkRat 7 10) c3wRaw c3wRaw none none
    (by decide) (by decide) (by decide) (by decide)
  refine ⟨h.2.1, ?_⟩
  rw [h.2.2.1 "TIER_B_OFFICIAL_SIGNAL" rfl]
  decide

/-! ## Claim C1 — invalid items never reach the authoritative store -/

/-- A classification field outside its enumeration fails the schema. -/
theorem optionHolds_false_of_violates (f : String → Bool)
    (o : Option String) (h : optionViolates f o = true) :
    optionHolds f o = false := by
  cases o with
  | none => simp [optionViolates] at h
  | some v =>
    simp only [optionViolates, Bool.not_eq_true'] at h
    simp [optionHolds, h]

/-- A classification field outside its enumeration fails the schema. -/
theorem schemaOk_false_of_classification (raw : RawRegulationItem)
    (hc : classificationOutsideEnum raw = true) :
    regulationItemSchemaOk raw = false := by
  by_contra hs
  rw [Bool.not_eq_false] at hs
  simp only [regulationItemSchemaOk, Bool.and_eq_true] at hs
  obtain ⟨⟨⟨⟨⟨⟨⟨⟨⟨⟨⟨⟨⟨⟨⟨⟨⟨⟨⟨h_id, h_jur⟩, h_so⟩, h_sty⟩, h_ti⟩, h_s1⟩,
    h_s4⟩, h_url⟩, h_dt⟩, h_stat⟩, h_top⟩, h_imp⟩, h_eng⟩, h_cit⟩, h_c0⟩,
    h_c1⟩, h_pri⟩, h_sd⟩, h_tt⟩, h_ms⟩ := hs
  simp only [classificationOutsideEnum, Bool.or_eq_true,
    Bool.not_eq_true'] at hc
  rcases hc with ((((((hc | hc) | hc) | hc) | hc) | hc) | hc) | hc
  · rw [h_jur] at hc; cases hc
  · rw [h_sty] at hc; cases hc
  · rw [h_stat] at hc; cases hc
  · rw [h_top] at hc; cases hc
  · rw [h_imp] at hc; cases hc
  · rw [h_pri] at hc; cases hc
  · rw [optionHolds_false_of_violates _ _ hc] at h_tt; cases h_tt
  · rw [optionHolds_false_of_violates _ _ hc] at h_ms; cases h_ms

/-- An item with empty citations, low confidence, or an enum violation
never validates. -/
theorem validate_not_ok_of_bad (cmin : Rat) (raw : RawRegulationItem)
    (h : raw.evidence.citations.getD [] = []
       ∨ raw.confidence < cmin
       ∨ classificationOutsideEnum raw = true) :
    (validateRegulationItem cmin raw).ok = false := by
  simp only [validateRegulationItem]
  split
  · rfl
  · split
    · rfl
    · split
      · rfl
      · split
        · rfl
        · rename_i hschema _ hcit hconf
          exfalso
          rcases h with h | h | h
          · apply hcit
            show (parseRegulationItem raw).evidence.citations.length = 0
            have : (parseRegulationItem raw).evidence.citations
                = raw.evidence.citations.getD [] := rfl
            rw [this, h]
            rfl
          · exact hconf h
          · rw [Bool.not_eq_true] at hschema
            rw [Bool.not_eq_false] at hschema
            rw [schemaOk_false_of_classification raw h] at hschema
            cases hschema

/-- Counterexample to C1 as stated: an otherwise valid candidate whose
trust tier is the out-of-enumeration string "" is a classification
violation on arrival, yet `processMergeJob` overwrites the falsy tier
with the inferred `TIER_A_BINDING` before validating, validation then
succeeds, and the item is upserted — not queued. -/
theorem claim_C1_counterexample :
    classificationOutsideEnum c1cRaw = true
  ∧ mergeItemDecision (mkRat 7 10) (some "TIER_A_BINDING") none c1cRaw
      = ItemDecision.upsert
          (parseRegulationItem
            (mergeFillItem (some "TIER_A_BINDING") none c1cRaw)) := by
  refine ⟨by decide, by decide⟩

/-- C1 (amended): a candidate item with empty evidence citations, or
confidence below the configured minimum, or a classification field
outside its closed enumeration — for the merge job judged after the
tier/stage inference preamble, which overwrites a falsy (absent or
empty-string) trust tier or monitoring stage with the inferred value —
is never upserted by `processScanJob` or `processMergeJob`; it is
wrapped into a pending review-queue entry with a non-empty reason. -/
theorem claim_C1_quarantine_amended (cmin : Rat)
    (raw : RawRegulationItem) (tInf sInf : Option String) :
    ((raw.evidence.citations.getD [] = []
       ∨ raw.confidence < cmin
       ∨ classificationOutsideEnum raw = true) →
      (∀ d, scanItemDecision cmin raw ≠ ItemDecision.upsert d)
      ∧ (∃ e, scanItemDecision cmin raw = ItemDecision.queue e
          ∧ e.status = "pending" ∧ e.reason ≠ ""
          ∧ e.entity_type = "RegulationItem"))
  ∧ (((mergeFillItem tInf sInf raw).evidence.citations.getD [] = []
       ∨ (mergeFillItem tInf sInf raw).confidence < cmin
       ∨ classificationOutsideEnum (mergeFillItem tInf sInf raw) = true) →
      (∀ d, mergeItemDecision cmin tInf sInf raw ≠ ItemDecision.upsert d)
      ∧ (∃ e, mergeItemDecision cmin tInf sInf raw = ItemDecision.queue e
          ∧ e.status = "pending" ∧ e.reason ≠ ""
          ∧ e.entity_type = "RegulationItem")) := by
  constructor
  · intro h
    have hok := validate_not_ok_of_bad cmin raw h
    have hscan := jobItemDecision_not_ok cmin "Unknown validation error" raw
      (by decide) hok
    obtain ⟨e1, he1, hs1, hr1, hent1⟩ := hscan
    refine ⟨?_, ⟨e1, ?_, hs1, hr1, hent1⟩⟩
    · intro d hcontra
      rw [scanItemDecision, he1] at hcontra
      cases hcontra
    · rw [scanItemDecision]
      exact he1
  · intro h
    have hokM := validate_not_ok_of_bad cmin (mergeFillItem tInf sInf raw) h
    have hmerge := jobItemDecision_not_ok cmin "Invalid merge output"
      (mergeFillItem tInf sInf raw) (by decide) hokM
    obtain ⟨e2, he2, hs2, hr2, hent2⟩ := hmerge
    refine ⟨?_, ⟨e2, ?_, hs2, hr2, hent2⟩⟩
    · intro d hcontra
      rw [mergeItemDecision, he2] at hcontra
      cases hcontra
    · rw [mergeItemDecision]
      exact he2

/-- Witness for the amended C1: the citation-free item is queued pending
with a non-empty reason by both jobs (and never upserted). -/
theorem claim_C1_witness :
    ((∀ d, scanItemDecision (mkRat 7 10) c1wRaw ≠ ItemDecision.upsert d)
      ∧ (∃ e, scanItemDecision (mkRat 7 10) c1wRaw = ItemDecision.queue e
          ∧ e.status = "pending" ∧ e.reason ≠ ""
          ∧ e.entity_type = "RegulationItem"))
  ∧ ((∀ d, mergeItemDecision (mkRat 7 10) none none c1wRaw
        ≠ ItemDecision.upsert d)
      ∧ (∃ e, mergeItemDecision (mkRat 7 10) none none c1wRaw
            = ItemDecision.queue e
          ∧ e.status = "pending" ∧ e.reason ≠ ""
          ∧ e.entity_type = "RegulationItem")) := by
  have h := claim_C1_quarantine_amended (mkRat 7 10) c1wRaw none none
  exact ⟨h.1 (Or.inl (by decide)), h.2 (Or.inl (by decide))⟩

/-! ## Claim C4 — idempotent object storage -/

/-- Cache-hit shape of `storeRemoteFile`: a file on disk at the derived
path is returned as-is, hashed from disk, without touching the
filesystem. -/
theorem storeRemoteFile_hit (sha256S : String → String)
    (sha256B : List Nat → String) (dir : String) (fsys : FileSys)
    (url : String) (b : List Nat) (ext : Option String) (safeName : String)
    (diskBytes : List Nat)
    (hs : sanitizeId (storedFilename sha256S url ext)
      = Except.ok safeName)
    (hd : fsGet fsys (dir ++ "/" ++ safeName) = some diskBytes) :
    storeRemoteFile sha256S sha256B dir fsys url b ext =
      Except.ok
        ({ id := safeName
           filename := safeName
           ext := if normalizedExtOf ext = "" then none
                  else some (normalizedExtOf ext)
           sha256 := sha256B diskBytes
           size := diskBytes.length
           cached := true
           storage_path := dir ++ "/" ++ safeName }, fsys) := by
  simp only [storeRemoteFile, hs, hd]

/-- Cache-miss shape of `storeRemoteFile`: the buffer is written and
hashed. -/
theorem storeRemoteFile_miss (sha256S : String → String)
    (sha256B : List Nat → String) (dir : String) (fsys : FileSys)
    (url : String) (b : List Nat) (ext : Option String) (safeName : String)
    (hs : sanitizeId (storedFilename sha256S url ext)
      = Except.ok safeName)
    (hd : fsGet fsys (dir ++ "/" ++ safeName) = none) :
    storeRemoteFile sha256S sha256B dir fsys url b ext =
      Except.ok
        ({ id := safeName
           filename := safeName
           ext := if normalizedExtOf ext = "" then none
                  else some (normalizedExtOf ext)
           sha256 := sha256B b
           size := b.length
           cached := false
           storage_path := dir ++ "/" ++ safeName },
         fsPut fsys (dir ++ "/" ++ safeName) b) := by
  simp only [storeRemoteFile, hs, hd]

/-- C4: `storeRemoteFile` is idempotent per source URL — after a first
fresh write of `b1`, a second call with any byte payload `b2` returns the
same id, reports `cached = true`, leaves the filesystem unchanged, and
returns the SHA-256 and size of the bytes on disk (`b1`), not of the new
buffer. -/
theorem claim_C4_store_idempotent (sha256S : String → String)
    (sha256B : List Nat → String) (dir : String) (fs0 : FileSys)
    (url : String) (b1 b2 : List Nat) (ext : Option String)
    (r1 r2 : StoredFile) (fs1 fs2 : FileSys)
    (h1 : storeRemoteFile sha256S sha256B dir fs0 url b1 ext
      = Except.ok (r1, fs1))
    (hfresh : r1.cached = false)
    (h2 : storeRemoteFile sha256S sha256B dir fs1 url b2 ext
      = Except.ok (r2, fs2)) :
    r2.id = r1.id ∧ r2.cached = true ∧ fs2 = fs1
      ∧ r2.sha256 = sha256B b1 ∧ r2.size = b1.length := by
  cases hsan : sanitizeId (storedFilename sha256S url ext) with
  | error e =>
    exfalso
    have : storeRemoteFile sha256S sha256B dir fs0 url b1 ext
        = Except.error e := by
      simp only [storeRemoteFile, hsan]
    rw [this] at h1
    cases h1
  | ok safeName =>
    cases hd0 : fsGet fs0 (dir ++ "/" ++ safeName) with
    | some disk =>
      exfalso
      have := storeRemoteFile_hit sha256S sha256B dir fs0 url b1 ext
        safeName disk hsan hd0
      rw [this] at h1
      simp only [Except.ok.injEq, Prod.mk.injEq] at h1
      rw [← h1.1] at hfresh
      cases hfresh
    | none =>
      have hm := storeRemoteFile_miss sha256S sha256B dir fs0 url b1 ext
        safeName hsan hd0
      rw [hm] at h1
      simp only [Except.ok.injEq, Prod.mk.injEq] at h1
      obtain ⟨h1r, h1f⟩ := h1
      have hget : fsGet fs1 (dir ++ "/" ++ safeName) = some b1 := by
        rw [← h1f]
        simp only [fsGet, fsPut]
        exact mapGet_mapSet_self fs0 (dir ++ "/" ++ safeName) b1
      have hh := storeRemoteFile_hit sha256S sha256B dir fs1 url b2 ext
        safeName b1 hsan hget
      rw [hh] at h2
      simp only [Except.ok.injEq, Prod.mk.injEq] at h2
      obtain ⟨h2r, h2f⟩ := h2
      rw [← h1r, ← h2r]
      exact ⟨rfl, rfl, h2f.symm, rfl, rfl⟩

/-- Witness for C4: storing the same URL twice with different bytes
returns the first object's id and the digest and size of the bytes on
disk. -/
theorem claim_C4_witness :
    storeRemoteFile c4wHashS c4wHashB "objects" [] "https://x.org/f.pdf"
        [1, 2, 3] (some "pdf")
      = Except.ok (c4wR1, [("objects/u19.pdf", [1, 2, 3])])
  ∧ storeRemoteFile c4wHashS c4wHashB "objects"
        [("objects/u19.pdf", [1, 2, 3])] "https://x.org/f.pdf" [9]
        (some "pdf")
      = Except.ok (c4wR2, [("objects/u19.pdf", [1, 2, 3])])
  ∧ c4wR1.cached = false
  ∧ c4wR2.id = c4wR1.id ∧ c4wR2.cached = true
  ∧ c4wR2.sha256 = c4wHashB [1, 2, 3] ∧ c4wR2.size = 3 := by
  have h := claim_C4_store_idempotent c4wHashS c4wHashB "objects" []
    "https://x.org/f.pdf" [1, 2, 3] [9] (some "pdf") c4wR1 c4wR2
    [("objects/u19.pdf", [1, 2, 3])] [("objects/u19.pdf", [1, 2, 3])]
    (by rfl) rfl (by rfl)
  refine ⟨by rfl, by rfl, rfl, h.1, h.2.1, h.2.2.2.1, ?_⟩
  rw [h.2.2.2.2]
  rfl

/-! ## Claim C8 — primary-file selection of the connector -/

/-- `orderByExt` returns a member of minimal extension rank. -/
theorem orderByExt_spec (l : List GarFileLink) (f : GarFileLink)
    (h : orderByExt l = some f) :
    f ∈ l ∧ ∀ g ∈ l, extRank f ≤ extRank g := by
  unfold orderByExt at h
  cases h1 : l.find? (fun x => linkExtLower x = "docx") with
  | some f0 =>
    simp only [h1, Option.some.injEq] at h
    subst h
    refine ⟨List.mem_of_find?_eq_some h1, fun g _ => ?_⟩
    have hf := List.find?_some h1
    simp only [decide_eq_true_eq] at hf
    simp [extRank, hf]
  | none =>
    have hn1 : ∀ x ∈ l, ¬ linkExtLower x = "docx" := by
      intro x hx
      have := List.find?_eq_none.mp h1 x hx
      simpa using this
    simp only [h1] at h
    cases h2 : l.find? (fun x => linkExtLower x = "pdf") with
    | some f0 =>
      simp only [h2, Option.some.injEq] at h
      subst h
      refine ⟨List.mem_of_find?_eq_some h2, fun g hg => ?_⟩
      have hf := List.find?_some h2
      simp only [decide_eq_true_eq] at hf
      have hrf : extRank f0 = 1 := by
        simp [extRank, hf, hn1 f0 (List.mem_of_find?_eq_some h2)]
      rw [hrf]
      simp [extRank, hn1 g hg]
      (repeat' split) <;> omega
    | none =>
      have hn2 : ∀ x ∈ l, ¬ linkExtLower x = "pdf" := by
        intro x hx
        have := List.find?_eq_none.mp h2 x hx
        simpa using this
      simp only [h2] at h
      cases h3 : l.find? (fun x => linkExtLower x = "pptx") with
      | some f0 =>
        simp only [h3, Option.some.injEq] at h
        subst h
        refine ⟨List.mem_of_find?_eq_some h3, fun g hg => ?_⟩
        have hf := List.find?_some h3
        simp only [decide_eq_true_eq] at hf
        have hm := List.mem_of_find?_eq_some h3
        have hrf : extRank f0 = 2 := by
          simp [extRank, hf, hn1 f0 hm, hn2 f0 hm]
        rw [hrf]
        simp [extRank, hn1 g hg, hn2 g hg]
        (repeat' split) <;> omega
      | none =>
        have hn3 : ∀ x ∈ l, ¬ linkExtLower x = "pptx" := by
          intro x hx
          have := List.find?_eq_none.mp h3 x hx
          simpa using this
        simp only [h3] at h
        cases h4 : l.find? (fun x => linkExtLower x = "xls") with
        | some f0 =>
          simp only [h4, Option.some.injEq] at h
          subst h
          refine ⟨List.mem_of_find?_eq_some h4, fun g hg => ?_⟩
          have hf := List.find?_some h4
          simp only [decide_eq_true_eq] at hf
          have hm := List.mem_of_find?_eq_some h4
          have hrf : extRank f0 = 3 := by
            simp [extRank, hf, hn1 f0 hm, hn2 f0 hm, hn3 f0 hm]
          rw [hrf]
          simp [extRank, hn1 g hg, hn2 g hg, hn3 g hg]
          (repeat' split) <;> omega
        | none =>
          have hn4 : ∀ x ∈ l, ¬ linkExtLower x = "xls" := by
            intro x hx
            have := List.find?_eq_none.mp h4 x hx
            simpa using this
          simp only [h4] at h
          cases h5 : l.find? (fun x => linkExtLower x = "xlsx") with
          | some f0 =>
            simp only [h5, Option.some.injEq] at h
            subst h
            refine ⟨List.mem_of_find?_eq_some h5, fun g hg => ?_⟩
            have hf := List.find?_some h5
            simp only [decide_eq_true_eq] at hf
            have hm := List.mem_of_find?_eq_some h5
            have hrf : extRank f0 = 4 := by
              simp [extRank, hf, hn1 f0 hm, hn2 f0 hm, hn3 f0 hm, hn4 f0 hm]
            rw [hrf]
            simp [extRank, hn1 g hg, hn2 g hg, hn3 g hg, hn4 g hg]
            (repeat' split) <;> omega
          | none =>
            have hn5 : ∀ x ∈ l, ¬ linkExtLower x = "xlsx" := by
              intro x hx
              have := List.find?_eq_none.mp h5 x hx
              simpa using this
            simp only [h5] at h
            cases l with
            | nil => cases h
            | cons a t =>
              simp only [List.head?] at h
              injection h with h
              subst h
              refine ⟨List.mem_cons_self a t, fun g hg => ?_⟩
              have hma := List.mem_cons_self a t
              have hrf : extRank a = 5 := by
                simp [extRank, hn1 a hma, hn2 a hma, hn3 a hma, hn4 a hma,
                  hn5 a hma]
              have hrg : extRank g = 5 := by
                simp [extRank, hn1 g hg, hn2 g hg, hn3 g hg, hn4 g hg,
                  hn5 g hg]
              rw [hrf, hrg]

/-- `orderByExt` only fails on the empty list. -/
theorem orderByExt_none (l : List GarFileLink)
    (h : orderByExt l = none) : l = [] := by
  unfold orderByExt at h
  cases h1 : l.find? (fun x => linkExtLower x = "docx") with
  | some f0 => simp only [h1] at h; cases h
  | none =>
    simp only [h1] at h
    cases h2 : l.find? (fun x => linkExtLower x = "pdf") with
    | some f0 => simp only [h2] at h; cases h
    | none =>
      simp only [h2] at h
      cases h3 : l.find? (fun x => linkExtLower x = "pptx") with
      | some f0 => simp only [h3] at h; cases h
      | none =>
        simp only [h3] at h
        cases h4 : l.find? (fun x => linkExtLower x = "xls") with
        | some f0 => simp only [h4] at h; cases h
        | none =>
          simp only [h4] at h
          cases h5 : l.find? (fun x => linkExtLower x = "xlsx") with
          | some f0 => simp only [h5] at h; cases h
          | none =>
            simp only [h5] at h
            cases l with
            | nil => rfl
            | cons a t => simp [List.head?] at h

/-- C8: the connector picks exactly one primary file whenever the detail
page offers any file links (and none otherwise); when a
globalautoregs.com (canonical) copy exists the chosen target always
comes from it, so a UNECE mirror is never downloaded, and the
informational skip message is emitted whenever both copies exist; among
candidates of the same source the extension order
docx > pdf > pptx > xls > xlsx decides. -/
theorem claim_C8_file_selection (files : List GarFileLink) :
    (fetchDocumentFileSelection files).targets.length ≤ 1
  ∧ (files ≠ [] → (fetchDocumentFileSelection files).targets.length = 1)
  ∧ (hasGar files = true →
      ∀ f ∈ (fetchDocumentFileSelection files).targets,
        f.source = some "GAR")
  ∧ (hasGar files = true → hasUnece files = true →
      (fetchDocumentFileSelection files).uneceSkipMessage = true)
  ∧ (∀ p, pickPrimaryFile files = some p →
      p ∈ files ∧ ∀ g ∈ files, g.source = p.source →
        extRank p ≤ extRank g) := by
  refine ⟨?_, ?_, ?_, ?_, ?_⟩
  · simp only [fetchDocumentFileSelection, buildDownloadTargets]
    cases pickPrimaryFile files with
    | some p => simp
    | none =>
      cases files with
      | nil => simp
      | cons a t => simp
  · intro hne
    simp only [fetchDocumentFileSelection, buildDownloadTargets]
    cases pickPrimaryFile files with
    | some p => simp
    | none =>
      cases files with
      | nil => exact absurd rfl hne
      | cons a t => simp
  · intro hgar f hf
    obtain ⟨x, hx, hxs⟩ := List.any_eq_true.mp hgar
    simp only [decide_eq_true_eq] at hxs
    have hne : ¬ files.isEmpty := by
      cases files with
      | nil => cases hx
      | cons a t => simp
    have hxf : x ∈ files.filter (fun f => f.source = some "GAR") := by
      rw [List.mem_filter]
      exact ⟨hx, by simp [hxs]⟩
    cases hord : orderByExt (files.filter (fun f => f.source = some "GAR"))
        with
    | none =>
      rw [orderByExt_none _ hord] at hxf
      cases hxf
    | some f0 =>
      have hpick : pickPrimaryFile files = some f0 := by
        simp only [pickPrimaryFile]
        rw [if_neg hne]
        simp only [hord]
      have hf0 : f0 ∈ files.filter (fun f => f.source = some "GAR") :=
        (orderByExt_spec _ f0 hord).1
      have hf0s : f0.source = some "GAR" := by
        have := (List.mem_filter.mp hf0).2
        simpa using this
      simp only [fetchDocumentFileSelection, buildDownloadTargets,
        hpick] at hf
      simp only [List.mem_singleton] at hf
      rw [hf]
      exact hf0s
  · intro hgar hun
    simp [fetchDocumentFileSelection, hgar, hun]
  · intro p hp
    simp only [pickPrimaryFile] at hp
    by_cases hne : files.isEmpty
    · rw [if_pos hne] at hp; cases hp
    · rw [if_neg hne] at hp
      cases hord1 : orderByExt (files.filter (fun f => f.source = some "GAR"))
          with
      | some f0 =>
        rw [hord1] at hp
        simp only [Option.some.injEq] at hp
        rw [← hp]
        obtain ⟨hmem, hmin⟩ := orderByExt_spec _ f0 hord1
        have hps : f0.source = some "GAR" := by
          have := (List.mem_filter.mp hmem).2
          simpa using this
        refine ⟨(List.mem_filter.mp hmem).1, fun g hg hgs => ?_⟩
        have hgf : g ∈ files.filter (fun f => f.source = some "GAR") := by
          rw [List.mem_filter]
          exact ⟨hg, by simp [hgs, hps]⟩
        exact hmin g hgf
      | none =>
        rw [hord1] at hp
        cases hord2 :
            orderByExt (files.filter (fun f => f.source = some "UNECE")) with
        | some f0 =>
          rw [hord2] at hp
          simp only [Option.some.injEq] at hp
          rw [← hp]
          obtain ⟨hmem, hmin⟩ := orderByExt_spec _ f0 hord2
          have hps : f0.source = some "UNECE" := by
            have := (List.mem_filter.mp hmem).2
            simpa using this
          refine ⟨(List.mem_filter.mp hmem).1, fun g hg hgs => ?_⟩
          have hgf : g ∈ files.filter (fun f => f.source = some "UNECE") := by
            rw [List.mem_filter]
            exact ⟨hg, by simp [hgs, hps]⟩
          exact hmin g hgf
        | none =>
          rw [hord2] at hp
          obtain ⟨hmem, hmin⟩ := orderByExt_spec _ p hp
          exact ⟨hmem, fun g hg _ => hmin g hg⟩

/-- Witness for C8: with both a canonical pdf and a mirror docx, exactly
one file — the canonical one — is downloaded and the skip message is
emitted. -/
theorem claim_C8_witness :
    (fetchDocumentFileSelection c8wFiles).targets.length = 1
  ∧ (∀ f ∈ (fetchDocumentFileSelection c8wFiles).targets,
      f.source = some "GAR")
  ∧ (fetchDocumentFileSelection c8wFiles).uneceSkipMessage = true := by
  have h := claim_C8_file_selection c8wFiles
  exact ⟨h.2.1 (by decide), h.2.2.1 (by decide),
    h.2.2.2.1 (by decide) (by decide)⟩

/-! ## Claim C9 — retry loop (corrected: backoff only on transport
failure) -/

/-- Splitting a filtered-and-mapped range at its head. -/
theorem rangeShiftFilterMap (p : Nat → Bool) (f : Nat → Nat) (n : Nat) :
    ((List.range (n + 1)).filter p).map f
      = (if p 0 then [f 0] else [])
        ++ (((List.range n).filter (fun j => p (j + 1))).map
            (fun j => f (j + 1))) := by
  rw [List.range_succ_eq_map, List.filter_cons]
  by_cases hp : p 0
  · rw [if_pos hp, if_pos hp, List.map_cons, List.filter_map, List.map_map]
    rfl
  · rw [if_neg hp, if_neg hp, List.filter_map, List.map_map]
    rfl

/-- The loop makes at most `fuel` fetch attempts. -/
theorem fetchWithRetryGo_attempts_le (outcome : Nat → AttemptOutcome)
    (retries : Nat) : ∀ (fuel attempt : Nat) (lastErr : Option String),
      (fetchWithRetryGo outcome retries fuel attempt lastErr).attempts
        ≤ fuel := by
  intro fuel
  induction fuel with
  | zero => intro attempt lastErr; simp [fetchWithRetryGo]
  | succ fuel ih =>
    intro attempt lastErr
    simp only [fetchWithRetryGo]
    split
    · split
      · exact Nat.succ_le_succ (ih (attempt + 1) _)
      · exact Nat.succ_le_succ (Nat.zero_le fuel)
    · split
      · exact Nat.succ_le_succ (ih (attempt + 1) _)
      · exact Nat.succ_le_succ (Nat.zero_le fuel)

/-- With at least one unit of fuel the loop makes at least one attempt. -/
theorem fetchWithRetryGo_attempts_pos (outcome : Nat → AttemptOutcome)
    (retries fuel attempt : Nat) (lastErr : Option String)
    (hf : 1 ≤ fuel) :
    1 ≤ (fetchWithRetryGo outcome retries fuel attempt lastErr).attempts := by
  cases fuel with
  | zero => omega
  | succ fuel =>
    simp only [fetchWithRetryGo]
    split
    · split
      · exact Nat.succ_le_succ (Nat.zero_le _)
      · exact Nat.le_refl 1
    · split
      · exact Nat.succ_le_succ (Nat.zero_le _)
      · exact Nat.le_refl 1

/-- Exact characterization of the backoff sleeps: one sleep of
`500 * (i + 1)` per executed non-final attempt `i` whose outcome was a
thrown transport error — non-2xx responses contribute no sleep. -/
theorem fetchWithRetryGo_sleeps (outcome : Nat → AttemptOutcome)
    (retries : Nat) : ∀ (fuel attempt : Nat) (lastErr : Option String),
      attempt + fuel = retries + 1 →
      (fetchWithRetryGo outcome retries fuel attempt lastErr).sleeps
        = ((List.range
            ((fetchWithRetryGo outcome retries fuel attempt lastErr).attempts
              - 1)).filter
            (fun j => attemptThrew (outcome (attempt + j)))).map
            (fun j => 500 * (attempt + j + 1)) := by
  intro fuel
  induction fuel with
  | zero => intro attempt lastErr hinv; simp [fetchWithRetryGo]
  | succ fuel ih =>
    intro attempt lastErr hinv
    have hinv2 : (attempt + 1) + fuel = retries + 1 := by omega
    simp only [fetchWithRetryGo]
    split
    · rename_i ok status hout
      split
      · rename_i hcond
        show (fetchWithRetryGo outcome retries fuel (attempt + 1)
            (some ("Fetch failed (" ++ toString status ++ ")"))).sleeps
          = ((List.range
              ((fetchWithRetryGo outcome retries fuel (attempt + 1)
                (some ("Fetch failed (" ++ toString status ++ ")"))).attempts
                + 1 - 1)).filter
              (fun j => attemptThrew (outcome (attempt + j)))).map
              (fun j => 500 * (attempt + j + 1))
        rw [Nat.add_sub_cancel]
        rw [ih (attempt + 1)
          (some ("Fetch failed (" ++ toString status ++ ")")) hinv2]
        cases hA : (fetchWithRetryGo outcome retries fuel (attempt + 1)
            (some ("Fetch failed (" ++ toString status ++ ")"))).attempts with
        | zero => simp
        | succ n =>
          rw [rangeShiftFilterMap
            (fun j => attemptThrew (outcome (attempt + j)))
            (fun j => 500 * (attempt + j + 1)) n]
          have hp0 : attemptThrew (outcome (attempt + 0)) = false := by
            rw [Nat.add_zero, hout]
            rfl
          rw [hp0]
          simp only [Bool.false_eq_true, if_false, List.nil_append,
            Nat.add_sub_cancel]
          have hpc : (fun j => attemptThrew (outcome (attempt + (j + 1))))
              = (fun j => attemptThrew (outcome (attempt + 1 + j))) := by
            funext j
            have harith : attempt + (j + 1) = attempt + 1 + j := by omega
            rw [harith]
          have hfc : (fun j => 500 * (attempt + (j + 1) + 1))
              = (fun j => 500 * (attempt + 1 + j + 1)) := by
            funext j
            have harith : attempt + (j + 1) + 1 = attempt + 1 + j + 1 := by
              omega
            rw [harith]
          rw [hpc, hfc]
      · show ([] : List Nat)
          = ((List.range (1 - 1)).filter
              (fun j => attemptThrew (outcome (attempt + j)))).map
              (fun j => 500 * (attempt + j + 1))
        simp
    · rename_i msg hout
      split
      · rename_i hcond
        show 500 * (attempt + 1)
              :: (fetchWithRetryGo outcome retries fuel (attempt + 1)
                  (some msg)).sleeps
          = ((List.range
              ((fetchWithRetryGo outcome retries fuel (attempt + 1)
                (some msg)).attempts + 1 - 1)).filter
              (fun j => attemptThrew (outcome (attempt + j)))).map
              (fun j => 500 * (attempt + j + 1))
        rw [Nat.add_sub_cancel]
        rw [ih (attempt + 1) (some msg) hinv2]
        have hpos : 1 ≤ (fetchWithRetryGo outcome retries fuel (attempt + 1)
            (some msg)).attempts :=
          fetchWithRetryGo_attempts_pos outcome retries fuel (attempt + 1)
            (some msg) (by omega)
        cases hA : (fetchWithRetryGo outcome retries fuel (attempt + 1)
            (some msg)).attempts with
        | zero => rw [hA] at hpos; cases hpos
        | succ n =>
          rw [rangeShiftFilterMap
            (fun j => attemptThrew (outcome (attempt + j)))
            (fun j => 500 * (attempt + j + 1)) n]
          have hp0 : attemptThrew (outcome (attempt + 0)) = true := by
            rw [Nat.add_zero, hout]
            rfl
          rw [hp0]
          simp only [if_true, List.singleton_append, Nat.add_zero,
            Nat.add_sub_cancel]
          have hpc : (fun j => attemptThrew (outcome (attempt + (j + 1))))
              = (fun j => attemptThrew (outcome (attempt + 1 + j))) := by
            funext j
            have harith : attempt + (j + 1) = attempt + 1 + j := by omega
            rw [harith]
          have hfc : (fun j => 500 * (attempt + (j + 1) + 1))
              = (fun j => 500 * (attempt + 1 + j + 1)) := by
            funext j
            have harith : attempt + (j + 1) + 1 = attempt + 1 + j + 1 := by
              omega
            rw [harith]
          rw [hpc, hfc]
      · show ([] : List Nat)
          = ((List.range (1 - 1)).filter
              (fun j => attemptThrew (outcome (attempt + j)))).map
              (fun j => 500 * (attempt + j + 1))
        simp

/-- If every attempt fails, the loop's result is a thrown error or a
non-ok response. -/
theorem fetchWithRetryGo_all_fail (outcome : Nat → AttemptOutcome)
    (retries : Nat) (hall : ∀ i, attemptFailed (outcome i) = true) :
    ∀ (fuel attempt : Nat) (lastErr : Option String),
      respFailed
        (fetchWithRetryGo outcome retries fuel attempt lastErr).result
        = true := by
  intro fuel
  induction fuel with
  | zero => intro attempt lastErr; simp [fetchWithRetryGo, respFailed]
  | succ fuel ih =>
    intro attempt lastErr
    simp only [fetchWithRetryGo]
    split
    · rename_i ok status hout
      split
      · exact ih (attempt + 1) _
      · show (!ok) = true
        have := hall attempt
        rw [hout] at this
        simpa [attemptFailed] using this
    · rename_i msg hout
      split
      · exact ih (attempt + 1) _
      · rfl

/-- C9 (amended): `fetchWithRetry` makes at most `retries + 1` attempts;
the backoff sleeps are exactly one `500 * (i + 1)` ms sleep per executed
non-final attempt `i` that threw a transport error — a non-2xx response
before the last attempt triggers an immediate retry with no sleep; and
when every attempt fails, the failure is surfaced by the calling fetch
function (the last error is rethrown, or the returned non-ok response is
turned into a thrown error). -/
theorem claim_C9_retry_amended (outcome : Nat → AttemptOutcome)
    (retries : Nat) :
    (fetchWithRetry outcome retries).attempts ≤ retries + 1
  ∧ (fetchWithRetry outcome retries).sleeps
      = ((List.range ((fetchWithRetry outcome retries).attempts - 1)).filter
          (fun j => attemptThrew (outcome j))).map (fun j => 500 * (j + 1))
  ∧ ((∀ i, attemptFailed (outcome i) = true) →
      ∃ e, fetchResultSurfaced (fetchWithRetry outcome retries).result
        = Except.error e) := by
  refine ⟨fetchWithRetryGo_attempts_le outcome retries (retries + 1) 0 none,
    ?_, ?_⟩
  · have h := fetchWithRetryGo_sleeps outcome retries (retries + 1) 0 none
      (by omega)
    rw [fetchWithRetry]
    rw [h]
    have hpc : (fun j => attemptThrew (outcome (0 + j)))
        = (fun j => attemptThrew (outcome j)) := by
      funext j
      rw [Nat.zero_add]
    have hfc : (fun j => 500 * (0 + j + 1)) = (fun j => 500 * (j + 1)) := by
      funext j
      rw [Nat.zero_add]
    rw [hpc, hfc]
  · intro hall
    have h := fetchWithRetryGo_all_fail outcome retries hall (retries + 1)
      0 none
    rw [fetchWithRetry]
    cases hres : (fetchWithRetryGo outcome retries (retries + 1) 0
        none).result with
    | error e => exact ⟨e, rfl⟩
    | ok r =>
      rw [hres] at h
      have hok : r.ok = false := by
        simpa [respFailed] using h
      refine ⟨"Fetch failed (" ++ toString r.status ++ ")", ?_⟩
      simp [fetchResultSurfaced, hok]

/-- Counterexample to C9 as stated: with retries = 2, attempt 0 returns a
non-2xx status before the last attempt and a retry happens (two attempts
total), yet no backoff sleep occurs — the 500 ms sleep the claim
prescribes for a non-2xx retry is absent (the source only sleeps in the
transport-error catch branch). -/
theorem claim_C9_counterexample :
    attemptFailed (c9cOutcome 0) = true
  ∧ attemptThrew (c9cOutcome 0) = false
  ∧ (fetchWithRetry c9cOutcome 2).attempts = 2
  ∧ (fetchWithRetry c9cOutcome 2).sleeps = [] := by
  refine ⟨rfl, rfl, rfl, rfl⟩

/-- Witness for the amended C9: with retries = 1 and transport failures
throughout, two attempts run, one backoff sleep of 500 ms occurs, and the
failure is surfaced. -/
theorem claim_C9_witness :
    (fetchWithRetry c9wOutcome 1).attempts ≤ 2
  ∧ (fetchWithRetry c9wOutcome 1).sleeps = [500]
  ∧ ∃ e, fetchResultSurfaced (fetchWithRetry c9wOutcome 1).result
      = Except.error e := by
  have h := claim_C9_retry_amended c9wOutcome 1
  refine ⟨h.1, ?_, h.2.2 (fun i => rfl)⟩
  rw [h.2.1]
  rfl

/-! ## Claim C6 — cooldown gate of the download connector (corrected:
a non-failed record with its object on disk is served from cache, not
re-downloaded) -/

/-- The network attempt always performs the fetch, whatever its
outcome. -/
theorem downloadAttempt_fetched (sha256S : String → String)
    (sha256B : List Nat → String) (storageDir nowIso : String)
    (idx : GarIndex) (fsys : FileSys) (fetchOutcome : FetchBufferOutcome)
    (file : GarFileLink) :
    (downloadAttempt sha256S sha256B storageDir nowIso idx fsys fetchOutcome
      file).fetched = true := by
  simp only [downloadAttempt]
  split
  · rfl
  · split <;> rfl

/-- The cooldown predicate holds under the claim's conditions. -/
theorem shouldSkipFailed_true (parseDateMs : String → Option Int)
    (nowMs : Int) (idx : GarIndex) (url : String) (cooldownMinutes : Rat)
    (r : GarIndexRecord) (la : String) (lastMs : Int)
    (hrec : getGarRecord idx url = some r)
    (hst : r.status = "failed")
    (hla : r.last_attempt = some la)
    (hparse : parseDateMs la = some lastMs)
    (hpos : 0 < cooldownMinutes)
    (hwin : mkRat (nowMs - lastMs) 60000 < cooldownMinutes) :
    shouldSkipFailed parseDateMs nowMs idx url cooldownMinutes = true := by
  simp only [shouldSkipFailed]
  rw [if_neg (not_le.mpr hpos), hrec]
  simp only
  rw [if_neg (not_not_intro hst), hla]
  simp only
  rw [hparse]
  simp only
  exact decide_eq_true hwin

/-- The cooldown predicate is false once the window has elapsed, when the
cooldown is non-positive, or when the record's status is not "failed". -/
theorem shouldSkipFailed_false_cases (parseDateMs : String → Option Int)
    (nowMs : Int) (idx : GarIndex) (url : String) (cooldownMinutes : Rat) :
    (cooldownMinutes ≤ 0 →
      shouldSkipFailed parseDateMs nowMs idx url cooldownMinutes = false)
  ∧ (∀ r, getGarRecord idx url = some r → r.status ≠ "failed" →
      shouldSkipFailed parseDateMs nowMs idx url cooldownMinutes = false)
  ∧ (∀ r la lastMs, getGarRecord idx url = some r →
      r.last_attempt = some la → parseDateMs la = some lastMs →
      cooldownMinutes ≤ mkRat (nowMs - lastMs) 60000 →
      shouldSkipFailed parseDateMs nowMs idx url cooldownMinutes = false) := by
  refine ⟨?_, ?_, ?_⟩
  · intro h
    simp only [shouldSkipFailed]
    rw [if_pos h]
  · intro r hrec hst
    simp only [shouldSkipFailed]
    split
    · rfl
    · rw [hrec]
      simp only
      rw [if_pos hst]
  · intro r la lastMs hrec hla hparse hwin
    simp only [shouldSkipFailed]
    split
    · rfl
    · rw [hrec]
      simp only
      split
      · rfl
      · rw [hla]
        simp only
        rw [hparse]
        simp only
        exact decide_eq_false (not_lt.mpr hwin)

/-- `loadCachedFile` misses when the record is absent, has no stored id,
or the object is gone from disk. -/
theorem loadCachedFile_none (nowIso : String) (idx : GarIndex)
    (storedFileExists : String → Bool) (file : GarFileLink)
    (hmiss : match getGarRecord idx file.url with
      | some r =>
        r.stored_id = none
          ∨ ∀ sid, r.stored_id = some sid → storedFileExists sid = false
      | none => True) :
    loadCachedFile nowIso idx storedFileExists file = none := by
  cases hrec : getGarRecord idx file.url with
  | none => simp only [loadCachedFile, hrec]
  | some r =>
    rw [hrec] at hmiss
    simp only [loadCachedFile, hrec]
    cases hsid : r.stored_id with
    | none => rfl
    | some sid =>
      have hex : storedFileExists sid = false := by
        rcases hmiss with hmiss | hmiss
        · rw [hsid] at hmiss; cases hmiss
        · exact hmiss sid hsid
      simp only [hex, Bool.false_eq_true, if_false]

/-- `loadCachedFile` hits when the record references a stored object
still on disk. -/
theorem loadCachedFile_hit (nowIso : String) (idx : GarIndex)
    (storedFileExists : String → Bool) (file : GarFileLink)
    (r : GarIndexRecord) (sid : String)
    (hrec : getGarRecord idx file.url = some r)
    (hsid : r.stored_id = some sid)
    (hex : storedFileExists sid = true) :
    loadCachedFile nowIso idx storedFileExists file =
      some (sid, setGarRecord idx file.url
        { r with status := "cached", last_seen := some nowIso }) := by
  simp only [loadCachedFile, hrec, hsid, hex]
  rfl

/-- C6 (amended): a "failed" record with a parsable `last_attempt`
strictly inside a positive cooldown window makes `downloadStoreAndExtract`
return the "cooldown_skip" error without fetching and without touching
the index or the store; when the gate does not fire (window elapsed,
cooldown non-positive, or record not failed), the fetch is performed
unless the record already references a stored object present on disk, in
which case the cached copy is returned without a new fetch. -/
theorem claim_C6_cooldown_amended (parseDateMs : String → Option Int)
    (sha256S : String → String) (sha256B : List Nat → String)
    (storageDir : String) (nowMs : Int) (nowIso : String)
    (cooldownMinutes : Rat) (idx : GarIndex) (fsys : FileSys)
    (storedFileExists : String → Bool) (fetchOutcome : FetchBufferOutcome)
    (file : GarFileLink) :
    (∀ r la lastMs, getGarRecord idx file.url = some r →
      r.status = "failed" → r.last_attempt = some la →
      parseDateMs la = some lastMs → 0 < cooldownMinutes →
      mkRat (nowMs - lastMs) 60000 < cooldownMinutes →
      downloadStoreAndExtract parseDateMs sha256S sha256B storageDir nowMs
          nowIso cooldownMinutes idx fsys storedFileExists fetchOutcome file
        = { error := some "cooldown_skip", stored_id := none
            cachedFlag := none, fetched := false, index := idx
            fsys := fsys })
  ∧ (shouldSkipFailed parseDateMs nowMs idx file.url cooldownMinutes = false →
      (match getGarRecord idx file.url with
        | some r =>
          r.stored_id = none
            ∨ ∀ sid, r.stored_id = some sid → storedFileExists sid = false
        | none => True) →
      (downloadStoreAndExtract parseDateMs sha256S sha256B storageDir nowMs
          nowIso cooldownMinutes idx fsys storedFileExists fetchOutcome
          file).fetched = true)
  ∧ (∀ r sid,
      shouldSkipFailed parseDateMs nowMs idx file.url cooldownMinutes = false →
      getGarRecord idx file.url = some r → r.stored_id = some sid →
      storedFileExists sid = true →
      (downloadStoreAndExtract parseDateMs sha256S sha256B storageDir nowMs
          nowIso cooldownMinutes idx fsys storedFileExists fetchOutcome
          file).fetched = false
      ∧ (downloadStoreAndExtract parseDateMs sha256S sha256B storageDir nowMs
          nowIso cooldownMinutes idx fsys storedFileExists fetchOutcome
          file).stored_id = some sid
      ∧ (downloadStoreAndExtract parseDateMs sha256S sha256B storageDir nowMs
          nowIso cooldownMinutes idx fsys storedFileExists fetchOutcome
          file).fsys = fsys) := by
  refine ⟨?_, ?_, ?_⟩
  · intro r la lastMs hrec hst hla hparse hpos hwin
    have hskip := shouldSkipFailed_true parseDateMs nowMs idx file.url
      cooldownMinutes r la lastMs hrec hst hla hparse hpos hwin
    simp only [downloadStoreAndExtract, hskip]
    rfl
  · intro hskip hmiss
    have hnone := loadCachedFile_none nowIso idx storedFileExists file hmiss
    simp only [downloadStoreAndExtract, hskip, Bool.false_eq_true, if_false,
      hnone]
    exact downloadAttempt_fetched sha256S sha256B storageDir nowIso idx fsys
      fetchOutcome file
  · intro r sid hskip hrec hsid hex
    have hhit := loadCachedFile_hit nowIso idx storedFileExists file r sid
      hrec hsid hex
    simp only [downloadStoreAndExtract, hskip, Bool.false_eq_true, if_false,
      hhit]
    exact ⟨trivial, trivial, trivial⟩
/-- Counterexample to C6 as stated: this record is not "failed" (it is
"cached" with its object still on disk), so by the claim the download
should be attempted — but `downloadStoreAndExtract` performs no fetch,
returning the cached copy instead. -/
theorem claim_C6_counterexample :
    c6cRec.status ≠ "failed"
  ∧ (0 : Rat) < 180
  ∧ (downloadStoreAndExtract c6cParseDate c4wHashS c4wHashB "objects" 0
      "2024-01-01T01:00:00Z" 180 c6cIdx [] (fun _ => true)
      (FetchBufferOutcome.ok [1, 2, 3]) c6cFile).fetched = false
  ∧ (downloadStoreAndExtract c6cParseDate c4wHashS c4wHashB "objects" 0
      "2024-01-01T01:00:00Z" 180 c6cIdx [] (fun _ => true)
      (FetchBufferOutcome.ok [1, 2, 3]) c6cFile).error = none
  ∧ (downloadStoreAndExtract c6cParseDate c4wHashS c4wHashB "objects" 0
      "2024-01-01T01:00:00Z" 180 c6cIdx [] (fun _ => true)
      (FetchBufferOutcome.ok [1, 2, 3]) c6cFile).cachedFlag = some true := by
  refine ⟨by decide, by decide, by decide, by decide, by decide⟩

/-- Witness for the amended C6: one minute after a failure, with a
180-minute cooldown, the call is skipped with "cooldown_skip" and neither
the index nor the store changes. -/
theorem claim_C6_witness :
    downloadStoreAndExtract c6wParseDate c4wHashS c4wHashB "objects" 60000
        "2024-01-01T01:00:00Z" 180 c6wIdx [] (fun _ => false)
        (FetchBufferOutcome.ok [1]) c6wFile
      = { error := some "cooldown_skip", stored_id := none
          cachedFlag := none, fetched := false, index := c6wIdx
          fsys := [] } :=
  (claim_C6_cooldown_amended c6wParseDate c4wHashS c4wHashB "objects" 60000
    "2024-01-01T01:00:00Z" 180 c6wIdx [] (fun _ => false)
    (FetchBufferOutcome.ok [1]) c6wFile).1 c6wRec "t0" 0 (by decide)
    (by decide) (by decide) (by decide) (by decide) (by decide)

/-! ## Claim C7 — lineage graph determinism and deduplication
(corrected: `normalizeUrl` keeps the query string, so UTM-tagged
variants are NOT merged; trailing-slash variants are) -/

theorem setEdge_wf (st : LineageState) (s rel t : String)
    (h : EdgesWF st.edges) : EdgesWF (setEdge st s rel t).edges := by
  refine ⟨mapSet_keys_nodup _ _ _ h.1, ?_⟩
  exact mapSet_entries _ _ _ _ h.2 rfl

theorem upsertNode_edges (hk : String → String) (st : LineageState)
    (ty ck lb : String) (meta : List (String × Option String)) :
    (upsertNode hk st ty ck lb meta).2.edges = st.edges := by
  simp only [upsertNode]
  split
  · split <;> rfl
  · rfl

theorem upsertNode_docMap (hk : String → String) (st : LineageState)
    (ty ck lb : String) (meta : List (String × Option String)) :
    (upsertNode hk st ty ck lb meta).2.sourceDocIdToNodeId
      = st.sourceDocIdToNodeId := by
  simp only [upsertNode]
  split
  · split <;> rfl
  · rfl

theorem addRunNode_edges (fd : String → String) (st : LineageState)
    (run : RunRow) : (addRunNode fd st run).edges = st.edges := rfl

theorem addDocNode_edges (hk : String → String) (st : LineageState)
    (doc : DocRow) : (addDocNode hk st doc).edges = st.edges :=
  upsertNode_edges hk st "SourceDocument" (docCanonicalKey doc)
    (jsOrS doc.title (jsOrS doc.domain "SourceDocument"))
    [("url", doc.url), ("domain", doc.domain)]

theorem addItemNode_edges (hk : String → String) (st : LineageState)
    (item : ItemRow) : (addItemNode hk st item).edges = st.edges :=
  upsertNode_edges hk st "RegulationItem" (itemCanonicalKey item)
    (jsOrS item.title (jsOrS item.summary_1line "RegulationItem"))
    [("jurisdiction", item.jurisdiction), ("priority", item.priority),
     ("trust_tier", item.trust_tier), ("status", item.status)]

theorem addReviewNode_edges (hk : String → String) (st : LineageState)
    (row : ReviewRow) : (addReviewNode hk st row).edges = st.edges := by
  simp only [addReviewNode]
  split
  · rfl
  · split
    · rfl
    · split
      · rfl
      · exact upsertNode_edges hk st "RegulationItem" _ _ _

theorem addReqNode_edges (hk : String → String) (st : LineageState)
    (req : ReqRow) : (addReqNode hk st req).edges = st.edges :=
  upsertNode_edges hk st "Requirement" (jsOrS req.requirement_family req.id)
    (jsOrS req.requirement_family "Requirement") [("priority", req.priority)]

theorem addLinkEdge_wf (st : LineageState) (link : LinkRow)
    (h : EdgesWF st.edges) : EdgesWF (addLinkEdge st link).edges := by
  simp only [addLinkEdge]
  apply setEdge_wf
  split
  · split
    · exact h
    · exact h
  · split
    · exact h
    · exact h

theorem addCitationEdge_wf (hk : String → String) (item : ItemRow)
    (st : LineageState) (ic : Nat × CitationRow)
    (h : EdgesWF st.edges) : EdgesWF (addCitationEdge hk item st ic).edges := by
  simp only [addCitationEdge]
  apply setEdge_wf
  rw [upsertNode_edges]
  exact h

theorem addImplicitEdges_wf (hk : String → String) (st : LineageState)
    (item : ItemRow) (h : EdgesWF st.edges) :
    EdgesWF (addImplicitEdges hk st item).edges := by
  simp only [addImplicitEdges]
  have h1 : EdgesWF
      (match item.source_document_id with
        | some sdid =>
          if sdid = "" then st
          else
            setEdge st
              ((mapGet st.sourceDocIdToNodeId sdid).getD (nodeIdStr "doc" sdid))
              "extracted_from"
              ((mapGet st.itemIdToNodeId item.id).getD
                (nodeIdStr "item" item.id))
        | none => st).edges := by
    split
    · split
      · exact h
      · exact setEdge_wf st _ _ _ h
    · exact h
  split
  · exact h1
  · exact foldlPreserve (fun s => EdgesWF s.edges)
      (addCitationEdge hk item) (fun s ic hs => addCitationEdge_wf hk item s ic hs)
      item.citations.enum _ h1

/-- The edge map of the full builder state is well-formed. -/
theorem buildLineageState_edges_wf (hk fd : String → String)
    (runs : List RunRow) (docs : List DocRow) (items : List ItemRow)
    (reviews : List ReviewRow) (reqs : List ReqRow) (links : List LinkRow) :
    EdgesWF (buildLineageState hk fd runs docs items reviews reqs
      links).edges := by
  have h0 : EdgesWF initLineageState.edges := by
    constructor
    · simp [initLineageState]
    · intro p hp
      simp [initLineageState] at hp
  have h1 := foldlPreserve (fun s => EdgesWF s.edges) (addRunNode fd)
    (fun s b hs => by simpa [addRunNode_edges] using hs) runs
    initLineageState h0
  have h2 := foldlPreserve (fun s => EdgesWF s.edges) (addDocNode hk)
    (fun s b hs => by simpa [addDocNode_edges] using hs) docs _ h1
  have h3 := foldlPreserve (fun s => EdgesWF s.edges) (addItemNode hk)
    (fun s b hs => by simpa [addItemNode_edges] using hs) items _ h2
  have h4 := foldlPreserve (fun s => EdgesWF s.edges) (addReviewNode hk)
    (fun s b hs => by simpa [addReviewNode_edges] using hs) reviews _ h3
  have h5 := foldlPreserve (fun s => EdgesWF s.edges) (addReqNode hk)
    (fun s b hs => by simpa [addReqNode_edges] using hs) reqs _ h4
  have h6 := foldlPreserve (fun s => EdgesWF s.edges) addLinkEdge
    (fun s b hs => addLinkEdge_wf s b hs) links _ h5
  exact foldlPreserve (fun s => EdgesWF s.edges) (addImplicitEdges hk)
    (fun s b hs => addImplicitEdges_wf hk s b hs) items _ h6

/-- A well-formed edge map has pairwise-distinct
(source, relation, target) triples among its values. -/
theorem edges_triples_nodup (m : List (String × LineageEdge))
    (h : EdgesWF m) :
    ((mapValues m).map
      (fun e => (e.source, e.relation, e.target))).Nodup := by
  have hkeys : m.map (·.1)
      = (m.map (fun p =>
          (p.2.source, p.2.relation, p.2.target))).map
        (fun t => t.1 ++ "__" ++ t.2.1 ++ "__" ++ t.2.2) := by
    rw [List.map_map]
    apply List.map_congr_left
    intro p hp
    exact h.2 p hp
  have hnd := h.1
  rw [hkeys] at hnd
  have hnd2 := List.Nodup.of_map _ hnd
  have heq : (mapValues m).map (fun e => (e.source, e.relation, e.target))
      = m.map (fun p => (p.2.source, p.2.relation, p.2.target)) := by
    simp only [mapValues, List.map_map]
    rfl
  rw [heq]
  exact hnd2

/-- `upsertNode` always leaves its own canonical key bound to the id it
returns. -/
theorem upsertNode_key_self (hk : String → String) (st : LineageState)
    (ty ck lb : String) (meta : List (String × Option String)) :
    mapGet (upsertNode hk st ty ck lb meta).2.nodeKeyToId (ty ++ "|" ++ ck)
      = some (upsertNode hk st ty ck lb meta).1 := by
  simp only [upsertNode]
  cases hg : mapGet st.nodeKeyToId (ty ++ "|" ++ ck) with
  | some i =>
    simp only [hg]
    cases hn : mapGet st.nodes i <;> simp only [hn] <;> exact hg
  | none =>
    simp only [hg]
    exact mapGet_mapSet_self st.nodeKeyToId (ty ++ "|" ++ ck) _

/-- `upsertNode` never unbinds or rebinds an existing canonical key. -/
theorem upsertNode_key_mono (hk : String → String) (st : LineageState)
    (ty ck lb : String) (meta : List (String × Option String)) (k : String)
    (i : String) (h : mapGet st.nodeKeyToId k = some i) :
    mapGet (upsertNode hk st ty ck lb meta).2.nodeKeyToId k = some i := by
  simp only [upsertNode]
  cases hg : mapGet st.nodeKeyToId (ty ++ "|" ++ ck) with
  | some j =>
    simp only [hg]
    cases hn : mapGet st.nodes j <;> simp only [hn] <;> exact h
  | none =>
    simp only [hg]
    have hne : k ≠ ty ++ "|" ++ ck := by
      intro hcontra
      rw [hcontra, hg] at h
      cases h
    rw [mapGet_mapSet_ne st.nodeKeyToId (ty ++ "|" ++ ck) k _ hne]
    exact h

/-- After `addDocNode`, the document id maps to a node id that the
document's canonical key is also bound to. -/
theorem addDocNode_self (hk : String → String) (st : LineageState)
    (doc : DocRow) :
    ∃ i, mapGet (addDocNode hk st doc).sourceDocIdToNodeId doc.id = some i
      ∧ mapGet (addDocNode hk st doc).nodeKeyToId
          ("SourceDocument|" ++ docCanonicalKey doc) = some i := by
  refine ⟨(upsertNode hk st "SourceDocument" (docCanonicalKey doc)
    (jsOrS doc.title (jsOrS doc.domain "SourceDocument"))
    [("url", doc.url), ("domain", doc.domain)]).1, ?_, ?_⟩
  · exact mapGet_mapSet_self _ doc.id _
  · exact upsertNode_key_self hk st "SourceDocument" (docCanonicalKey doc)
      (jsOrS doc.title (jsOrS doc.domain "SourceDocument"))
      [("url", doc.url), ("domain", doc.domain)]

/-- `addDocNode` does not disturb other documents' id bindings. -/
theorem addDocNode_docMap_ne (hk : String → String) (st : LineageState)
    (doc : DocRow) (x : String) (hne : x ≠ doc.id) :
    mapGet (addDocNode hk st doc).sourceDocIdToNodeId x
      = mapGet st.sourceDocIdToNodeId x := by
  show mapGet (mapSet (upsertNode hk st "SourceDocument"
    (docCanonicalKey doc)
    (jsOrS doc.title (jsOrS doc.domain "SourceDocument"))
    [("url", doc.url), ("domain", doc.domain)]).2.sourceDocIdToNodeId
    doc.id _) x = mapGet st.sourceDocIdToNodeId x
  rw [mapGet_mapSet_ne _ doc.id x _ hne]
  rw [upsertNode_docMap]

/-- `addDocNode` keeps existing canonical-key bindings. -/
theorem addDocNode_key_mono (hk : String → String) (st : LineageState)
    (doc : DocRow) (k i : String)
    (h : mapGet st.nodeKeyToId k = some i) :
    mapGet (addDocNode hk st doc).nodeKeyToId k = some i :=
  upsertNode_key_mono hk st "SourceDocument" (docCanonicalKey doc)
    (jsOrS doc.title (jsOrS doc.domain "SourceDocument"))
    [("url", doc.url), ("domain", doc.domain)] k i h

/-- Invariant of the document fold: every processed document's id is
bound to the node id its canonical key is bound to. -/
theorem docsFold_inv (hk : String → String) :
    ∀ (ds : List DocRow) (st : LineageState) (P : List DocRow),
      (∀ d ∈ P, ∀ e ∈ ds, d.id ≠ e.id) →
      ((ds.map (·.id)).Nodup) →
      (∀ d ∈ P, ∃ i,
        mapGet st.sourceDocIdToNodeId d.id = some i
          ∧ mapGet st.nodeKeyToId
              ("SourceDocument|" ++ docCanonicalKey d) = some i) →
      ∀ d ∈ P ++ ds, ∃ i,
        mapGet (ds.foldl (addDocNode hk) st).sourceDocIdToNodeId d.id
            = some i
          ∧ mapGet (ds.foldl (addDocNode hk) st).nodeKeyToId
              ("SourceDocument|" ++ docCanonicalKey d) = some i := by
  intro ds
  induction ds with
  | nil =>
    intro st P hPD hnd hInv d hd
    rw [List.append_nil] at hd
    exact hInv d hd
  | cons e es ih =>
    intro st P hPD hnd hInv d hd
    have hnd2 : (es.map (·.id)).Nodup := by
      simp only [List.map_cons, List.nodup_cons] at hnd
      exact hnd.2
    have heNotIn : e.id ∉ es.map (·.id) := by
      simp only [List.map_cons, List.nodup_cons] at hnd
      exact hnd.1
    have hPD2 : ∀ d2 ∈ P ++ [e], ∀ x ∈ es, d2.id ≠ x.id := by
      intro d2 hd2 x hx
      rcases List.mem_append.mp hd2 with h | h
      · exact hPD d2 h x (List.mem_cons_of_mem e hx)
      · have hde : d2 = e := by simpa using h
        subst hde
        intro hcontra
        exact heNotIn (hcontra ▸ List.mem_map_of_mem (·.id) hx)
    have hInv2 : ∀ d2 ∈ P ++ [e], ∃ i,
        mapGet (addDocNode hk st e).sourceDocIdToNodeId d2.id = some i
          ∧ mapGet (addDocNode hk st e).nodeKeyToId
              ("SourceDocument|" ++ docCanonicalKey d2) = some i := by
      intro d2 hd2
      rcases List.mem_append.mp hd2 with h | h
      · obtain ⟨i, hm, hkk⟩ := hInv d2 h
        have hne : d2.id ≠ e.id := hPD d2 h e (List.mem_cons_self e es)
        exact ⟨i, by rw [addDocNode_docMap_ne hk st e d2.id hne]; exact hm,
          addDocNode_key_mono hk st e _ i hkk⟩
      · have hde : d2 = e := by simpa using h
        subst hde
        exact addDocNode_self hk st d2
    have hres := ih (addDocNode hk st e) (P ++ [e]) hPD2 hnd2 hInv2 d
      (by rw [List.append_assoc]; simpa using hd)
    simpa [List.foldl_cons] using hres

/-- The stages after the document fold never touch the document id map. -/
theorem addItemNode_docMap (hk : String → String) (st : LineageState)
    (item : ItemRow) :
    (addItemNode hk st item).sourceDocIdToNodeId
      = st.sourceDocIdToNodeId :=
  upsertNode_docMap hk st "RegulationItem" (itemCanonicalKey item)
    (jsOrS item.title (jsOrS item.summary_1line "RegulationItem"))
    [("jurisdiction", item.jurisdiction), ("priority", item.priority),
     ("trust_tier", item.trust_tier), ("status", item.status)]

theorem addReviewNode_docMap (hk : String → String) (st : LineageState)
    (row : ReviewRow) :
    (addReviewNode hk st row).sourceDocIdToNodeId
      = st.sourceDocIdToNodeId := by
  simp only [addReviewNode]
  split
  · rfl
  · split
    · rfl
    · split
      · rfl
      · exact upsertNode_docMap hk st "RegulationItem" _ _ _

theorem addReqNode_docMap (hk : String → String) (st : LineageState)
    (req : ReqRow) :
    (addReqNode hk st req).sourceDocIdToNodeId = st.sourceDocIdToNodeId :=
  upsertNode_docMap hk st "Requirement" (jsOrS req.requirement_family req.id)
    (jsOrS req.requirement_family "Requirement") [("priority", req.priority)]

theorem addLinkEdge_docMap (st : LineageState) (link : LinkRow) :
    (addLinkEdge st link).sourceDocIdToNodeId = st.sourceDocIdToNodeId := by
  simp only [addLinkEdge, setEdge]
  split
  · split <;> rfl
  · split <;> rfl

theorem addCitationEdge_docMap (hk : String → String) (item : ItemRow)
    (st : LineageState) (ic : Nat × CitationRow) :
    (addCitationEdge hk item st ic).sourceDocIdToNodeId
      = st.sourceDocIdToNodeId := by
  show (setEdge (upsertNode hk st "Evidence" _ _ _).2 _ _ _).sourceDocIdToNodeId
    = st.sourceDocIdToNodeId
  show (upsertNode hk st "Evidence" _ _ _).2.sourceDocIdToNodeId
    = st.sourceDocIdToNodeId
  exact upsertNode_docMap hk st "Evidence" _ _ _

theorem addImplicitEdges_docMap (hk : String → String) (st : LineageState)
    (item : ItemRow) :
    (addImplicitEdges hk st item).sourceDocIdToNodeId
      = st.sourceDocIdToNodeId := by
  simp only [addImplicitEdges]
  have h1 :
      (match item.source_document_id with
        | some sdid =>
          if sdid = "" then st
          else
            setEdge st
              ((mapGet st.sourceDocIdToNodeId sdid).getD
                (nodeIdStr "doc" sdid))
              "extracted_from"
              ((mapGet st.itemIdToNodeId item.id).getD
                (nodeIdStr "item" item.id))
        | none => st).sourceDocIdToNodeId = st.sourceDocIdToNodeId := by
    split
    · split <;> rfl
    · rfl
  split
  · exact h1
  · refine foldlPreserve
      (fun s => s.sourceDocIdToNodeId = st.sourceDocIdToNodeId)
      (addCitationEdge hk item) ?_ item.citations.enum _ h1
    intro s ic hs
    rw [addCitationEdge_docMap]
    exact hs

/-- The document id map of the full builder state is the one produced by
the document fold. -/
theorem buildLineageState_docMap (hk fd : String → String)
    (runs : List RunRow) (docs : List DocRow) (items : List ItemRow)
    (reviews : List ReviewRow) (reqs : List ReqRow) (links : List LinkRow) :
    (buildLineageState hk fd runs docs items reviews reqs
        links).sourceDocIdToNodeId
      = (docs.foldl (addDocNode hk)
          (runs.foldl (addRunNode fd) initLineageState)).sourceDocIdToNodeId
      := by
  have h3 := foldlPreserve
    (fun s => s.sourceDocIdToNodeId
      = (docs.foldl (addDocNode hk)
          (runs.foldl (addRunNode fd)
            initLineageState)).sourceDocIdToNodeId)
    (addItemNode hk)
    (fun s b hs => by simpa [addItemNode_docMap] using hs) items _ rfl
  have h4 := foldlPreserve
    (fun s => s.sourceDocIdToNodeId
      = (docs.foldl (addDocNode hk)
          (runs.foldl (addRunNode fd)
            initLineageState)).sourceDocIdToNodeId)
    (addReviewNode hk)
    (fun s b hs => by simpa [addReviewNode_docMap] using hs) reviews _ h3
  have h5 := foldlPreserve
    (fun s => s.sourceDocIdToNodeId
      = (docs.foldl (addDocNode hk)
          (runs.foldl (addRunNode fd)
            initLineageState)).sourceDocIdToNodeId)
    (addReqNode hk)
    (fun s b hs => by simpa [addReqNode_docMap] using hs) reqs _ h4
  have h6 := foldlPreserve
    (fun s => s.sourceDocIdToNodeId
      = (docs.foldl (addDocNode hk)
          (runs.foldl (addRunNode fd)
            initLineageState)).sourceDocIdToNodeId)
    addLinkEdge
    (fun s b hs => by simpa [addLinkEdge_docMap] using hs) links _ h5
  exact foldlPreserve
    (fun s => s.sourceDocIdToNodeId
      = (docs.foldl (addDocNode hk)
          (runs.foldl (addRunNode fd)
            initLineageState)).sourceDocIdToNodeId)
    (addImplicitEdges hk)
    (fun s b hs => by simpa [addImplicitEdges_docMap] using hs) items _ h6

/-- Fold preservation with membership of the step element. -/
theorem foldlPreserveMem {α β : Type} (P : α → Prop) (f : α → β → α) :
    ∀ (l : List β), (∀ s, ∀ b ∈ l, P s → P (f s b)) →
      ∀ (s0 : α), P s0 → P (l.foldl f s0) := by
  intro l
  induction l with
  | nil => intro _ s0 h0; exact h0
  | cons b bs ih =>
    intro hstep s0 h0
    exact ih (fun s c hc hs => hstep s c (List.mem_cons_of_mem b hc) hs) _
      (hstep s0 b (List.mem_cons_self b bs) h0)

/-- `upsertNode` never touches the item id map. -/
theorem upsertNode_itemMap (hk : String → String) (st : LineageState)
    (ty ck lb : String) (meta : List (String × Option String)) :
    (upsertNode hk st ty ck lb meta).2.itemIdToNodeId
      = st.itemIdToNodeId := by
  simp only [upsertNode]
  split
  · split <;> rfl
  · rfl

/-- After `addItemNode`, the item id maps to a node id that the item's
canonical key is also bound to. -/
theorem addItemNode_self (hk : String → String) (st : LineageState)
    (item : ItemRow) :
    ∃ i, mapGet (addItemNode hk st item).itemIdToNodeId item.id = some i
      ∧ mapGet (addItemNode hk st item).nodeKeyToId
          ("RegulationItem|" ++ itemCanonicalKey item) = some i := by
  refine ⟨(upsertNode hk st "RegulationItem" (itemCanonicalKey item)
    (jsOrS item.title (jsOrS item.summary_1line "RegulationItem"))
    [("jurisdiction", item.jurisdiction), ("priority", item.priority),
     ("trust_tier", item.trust_tier), ("status", item.status)]).1, ?_, ?_⟩
  · exact mapGet_mapSet_self _ item.id _
  · exact upsertNode_key_self hk st "RegulationItem" (itemCanonicalKey item)
      (jsOrS item.title (jsOrS item.summary_1line "RegulationItem"))
      [("jurisdiction", item.jurisdiction), ("priority", item.priority),
       ("trust_tier", item.trust_tier), ("status", item.status)]

/-- `addItemNode` does not disturb other items' id bindings. -/
theorem addItemNode_itemMap_ne (hk : String → String) (st : LineageState)
    (item : ItemRow) (x : String) (hne : x ≠ item.id) :
    mapGet (addItemNode hk st item).itemIdToNodeId x
      = mapGet st.itemIdToNodeId x := by
  show mapGet (mapSet (upsertNode hk st "RegulationItem"
    (itemCanonicalKey item)
    (jsOrS item.title (jsOrS item.summary_1line "RegulationItem"))
    [("jurisdiction", item.jurisdiction), ("priority", item.priority),
     ("trust_tier", item.trust_tier),
     ("status", item.status)]).2.itemIdToNodeId
    item.id _) x = mapGet st.itemIdToNodeId x
  rw [mapGet_mapSet_ne _ item.id x _ hne]
  rw [upsertNode_itemMap]

/-- `addItemNode` keeps existing canonical-key bindings. -/
theorem addItemNode_key_mono (hk : String → String) (st : LineageState)
    (item : ItemRow) (k i : String)
    (h : mapGet st.nodeKeyToId k = some i) :
    mapGet (addItemNode hk st item).nodeKeyToId k = some i :=
  upsertNode_key_mono hk st "RegulationItem" (itemCanonicalKey item)
    (jsOrS item.title (jsOrS item.summary_1line "RegulationItem"))
    [("jurisdiction", item.jurisdiction), ("priority", item.priority),
     ("trust_tier", item.trust_tier), ("status", item.status)] k i h

/-- Invariant of the item fold: every processed item's id is bound to
the node id its canonical key is bound to. -/
theorem itemsFold_inv (hk : String → String) :
    ∀ (ds : List ItemRow) (st : LineageState) (P : List ItemRow),
      (∀ d ∈ P, ∀ e ∈ ds, d.id ≠ e.id) →
      ((ds.map (·.id)).Nodup) →
      (∀ d ∈ P, ∃ i,
        mapGet st.itemIdToNodeId d.id = some i
          ∧ mapGet st.nodeKeyToId
              ("RegulationItem|" ++ itemCanonicalKey d) = some i) →
      ∀ d ∈ P ++ ds, ∃ i,
        mapGet (ds.foldl (addItemNode hk) st).itemIdToNodeId d.id
            = some i
          ∧ mapGet (ds.foldl (addItemNode hk) st).nodeKeyToId
              ("RegulationItem|" ++ itemCanonicalKey d) = some i := by
  intro ds
  induction ds with
  | nil =>
    intro st P hPD hnd hInv d hd
    rw [List.append_nil] at hd
    exact hInv d hd
  | cons e es ih =>
    intro st P hPD hnd hInv d hd
    have hnd2 : (es.map (·.id)).Nodup := by
      simp only [List.map_cons, List.nodup_cons] at hnd
      exact hnd.2
    have heNotIn : e.id ∉ es.map (·.id) := by
      simp only [List.map_cons, List.nodup_cons] at hnd
      exact hnd.1
    have hPD2 : ∀ d2 ∈ P ++ [e], ∀ x ∈ es, d2.id ≠ x.id := by
      intro d2 hd2 x hx
      rcases List.mem_append.mp hd2 with h | h
      · exact hPD d2 h x (List.mem_cons_of_mem e hx)
      · have hde : d2 = e := by simpa using h
        subst hde
        intro hcontra
        exact heNotIn (hcontra ▸ List.mem_map_of_mem (·.id) hx)
    have hInv2 : ∀ d2 ∈ P ++ [e], ∃ i,
        mapGet (addItemNode hk st e).itemIdToNodeId d2.id = some i
          ∧ mapGet (addItemNode hk st e).nodeKeyToId
              ("RegulationItem|" ++ itemCanonicalKey d2) = some i := by
      intro d2 hd2
      rcases List.mem_append.mp hd2 with h | h
      · obtain ⟨i, hm, hkk⟩ := hInv d2 h
        have hne : d2.id ≠ e.id := hPD d2 h e (List.mem_cons_self e es)
        exact ⟨i, by rw [addItemNode_itemMap_ne hk st e d2.id hne]; exact hm,
          addItemNode_key_mono hk st e _ i hkk⟩
      · have hde : d2 = e := by simpa using h
        subst hde
        exact addItemNode_self hk st d2
    have hres := ih (addItemNode hk st e) (P ++ [e]) hPD2 hnd2 hInv2 d
      (by rw [List.append_assoc]; simpa using hd)
    simpa [List.foldl_cons] using hres

/-- `addReviewNode` disturbs no item id binding other than the review
payload's own id. -/
theorem addReviewNode_itemMap_ne (hk : String → String) (st : LineageState)
    (row : ReviewRow) (x : String) (hne : row.p_id ≠ some x) :
    mapGet (addReviewNode hk st row).itemIdToNodeId x
      = mapGet st.itemIdToNodeId x := by
  simp only [addReviewNode]
  split
  · rfl
  · split
    · rfl
    · rename_i pid hpid
      split
      · rfl
      · have hpx : x ≠ pid := by
          intro he
          apply hne
          rw [hpid, he]
        show mapGet (mapSet (upsertNode hk st "RegulationItem" _ _
            _).2.itemIdToNodeId pid
            (upsertNode hk st "RegulationItem" _ _ _).1) x
          = mapGet st.itemIdToNodeId x
        rw [mapGet_mapSet_ne _ pid x _ hpx]
        rw [upsertNode_itemMap]

/-- The requirement, stored-link and implicit-edge stages never touch
the item id map. -/
theorem addReqNode_itemMap (hk : String → String) (st : LineageState)
    (req : ReqRow) :
    (addReqNode hk st req).itemIdToNodeId = st.itemIdToNodeId :=
  upsertNode_itemMap hk st "Requirement" (jsOrS req.requirement_family req.id)
    (jsOrS req.requirement_family "Requirement") [("priority", req.priority)]

theorem addLinkEdge_itemMap (st : LineageState) (link : LinkRow) :
    (addLinkEdge st link).itemIdToNodeId = st.itemIdToNodeId := by
  simp only [addLinkEdge, setEdge]
  split
  · split <;> rfl
  · split <;> rfl

theorem addCitationEdge_itemMap (hk : String → String) (item : ItemRow)
    (st : LineageState) (ic : Nat × CitationRow) :
    (addCitationEdge hk item st ic).itemIdToNodeId
      = st.itemIdToNodeId := by
  show (setEdge (upsertNode hk st "Evidence" _ _ _).2 _ _ _).itemIdToNodeId
    = st.itemIdToNodeId
  show (upsertNode hk st "Evidence" _ _ _).2.itemIdToNodeId
    = st.itemIdToNodeId
  exact upsertNode_itemMap hk st "Evidence" _ _ _

theorem addImplicitEdges_itemMap (hk : String → String) (st : LineageState)
    (item : ItemRow) :
    (addImplicitEdges hk st item).itemIdToNodeId = st.itemIdToNodeId := by
  simp only [addImplicitEdges]
  have h1 :
      (match item.source_document_id with
        | some sdid =>
          if sdid = "" then st
          else
            setEdge st
              ((mapGet st.sourceDocIdToNodeId sdid).getD
                (nodeIdStr "doc" sdid))
              "extracted_from"
              ((mapGet st.itemIdToNodeId item.id).getD
                (nodeIdStr "item" item.id))
        | none => st).itemIdToNodeId = st.itemIdToNodeId := by
    split
    · split <;> rfl
    · rfl
  split
  · exact h1
  · refine foldlPreserve
      (fun s => s.itemIdToNodeId = st.itemIdToNodeId)
      (addCitationEdge hk item) ?_ item.citations.enum _ h1
    intro s ic hs
    rw [addCitationEdge_itemMap]
    exact hs

/-- Under disjointness of the review payload ids from `x`, the item id
map's binding of `x` in the full builder state is the one produced by
the item fold. -/
theorem buildLineageState_itemMap (hk fd : String → String)
    (runs : List RunRow) (docs : List DocRow) (items : List ItemRow)
    (reviews : List ReviewRow) (reqs : List ReqRow) (links : List LinkRow)
    (x : String) (hrv : ∀ rv ∈ reviews, rv.p_id ≠ some x) :
    mapGet (buildLineageState hk fd runs docs items reviews reqs
        links).itemIdToNodeId x
      = mapGet (items.foldl (addItemNode hk)
          (docs.foldl (addDocNode hk)
            (runs.foldl (addRunNode fd) initLineageState))).itemIdToNodeId x
      := by
  have h4 := foldlPreserveMem
    (fun s => mapGet s.itemIdToNodeId x
      = mapGet (items.foldl (addItemNode hk)
          (docs.foldl (addDocNode hk)
            (runs.foldl (addRunNode fd)
              initLineageState))).itemIdToNodeId x)
    (addReviewNode hk) reviews
    (fun s b hb hs => by
      simpa [addReviewNode_itemMap_ne hk s b x (hrv b hb)] using hs) _ rfl
  have h5 := foldlPreserve
    (fun s => mapGet s.itemIdToNodeId x
      = mapGet (items.foldl (addItemNode hk)
          (docs.foldl (addDocNode hk)
            (runs.foldl (addRunNode fd)
              initLineageState))).itemIdToNodeId x)
    (addReqNode hk)
    (fun s b hs => by simpa [addReqNode_itemMap] using hs) reqs _ h4
  have h6 := foldlPreserve
    (fun s => mapGet s.itemIdToNodeId x
      = mapGet (items.foldl (addItemNode hk)
          (docs.foldl (addDocNode hk)
            (runs.foldl (addRunNode fd)
              initLineageState))).itemIdToNodeId x)
    addLinkEdge
    (fun s b hs => by simpa [addLinkEdge_itemMap] using hs) links _ h5
  exact foldlPreserve
    (fun s => mapGet s.itemIdToNodeId x
      = mapGet (items.foldl (addItemNode hk)
          (docs.foldl (addDocNode hk)
            (runs.foldl (addRunNode fd)
              initLineageState))).itemIdToNodeId x)
    (addImplicitEdges hk)
    (fun s b hs => by simpa [addImplicitEdges_itemMap] using hs) items _ h6

/-- C7 (amended): `buildLineageGraph` is deterministic (it is a pure
function of the stored rows); no two edges of the result share the same
(source, relation, target) triple; and two document records — likewise
two item records, provided no review-queue payload reuses one of their
ids — whose URLs normalize to the same canonical key are assigned the
same node.  Normalization lowercases and strips one trailing slash but
preserves the query string, so trailing-slash variants merge while
UTM-tagged variants do not. -/
theorem claim_C7_lineage_amended (hk fd : String → String)
    (runs : List RunRow) (docs : List DocRow) (items : List ItemRow)
    (reviews : List ReviewRow) (reqs : List ReqRow) (links : List LinkRow) :
    buildLineageGraph hk fd runs docs items reviews reqs links
        = buildLineageGraph hk fd runs docs items reviews reqs links
  ∧ (((buildLineageGraph hk fd runs docs items reviews reqs
        links).edges.map
      (fun e => (e.source, e.relation, e.target))).Nodup)
  ∧ ((docs.map (·.id)).Nodup →
      ∀ d1 ∈ docs, ∀ d2 ∈ docs,
        docCanonicalKey d1 = docCanonicalKey d2 →
        ∃ i,
          mapGet (buildLineageState hk fd runs docs items reviews reqs
            links).sourceDocIdToNodeId d1.id = some i
          ∧ mapGet (buildLineageState hk fd runs docs items reviews reqs
            links).sourceDocIdToNodeId d2.id = some i)
  ∧ ((items.map (·.id)).Nodup →
      (∀ rv ∈ reviews, ∀ it ∈ items, rv.p_id ≠ some it.id) →
      ∀ i1 ∈ items, ∀ i2 ∈ items,
        itemCanonicalKey i1 = itemCanonicalKey i2 →
        ∃ n,
          mapGet (buildLineageState hk fd runs docs items reviews reqs
            links).itemIdToNodeId i1.id = some n
          ∧ mapGet (buildLineageState hk fd runs docs items reviews reqs
            links).itemIdToNodeId i2.id = some n) := by
  refine ⟨rfl, ?_, ?_, ?_⟩
  · exact edges_triples_nodup _
      (buildLineageState_edges_wf hk fd runs docs items reviews reqs links)
  · intro hnd d1 h1 d2 h2 hkey
    have hinv := docsFold_inv hk docs
      (runs.foldl (addRunNode fd) initLineageState) []
      (by intro d hd; cases hd) hnd (by intro d hd; cases hd)
    obtain ⟨i1, hm1, hk1⟩ := hinv d1 (by simpa using h1)
    obtain ⟨i2, hm2, hk2⟩ := hinv d2 (by simpa using h2)
    rw [hkey] at hk1
    have hi : i1 = i2 := Option.some.inj (hk1.symm.trans hk2)
    refine ⟨i1, ?_, ?_⟩
    · rw [buildLineageState_docMap]
      exact hm1
    · rw [buildLineageState_docMap, hi]
      exact hm2
  · intro hnd hrv i1 h1 i2 h2 hkey
    have hinv := itemsFold_inv hk items
      (docs.foldl (addDocNode hk)
        (runs.foldl (addRunNode fd) initLineageState)) []
      (by intro d hd; cases hd) hnd (by intro d hd; cases hd)
    obtain ⟨n1, hm1, hk1⟩ := hinv i1 (by simpa using h1)
    obtain ⟨n2, hm2, hk2⟩ := hinv i2 (by simpa using h2)
    rw [hkey] at hk1
    have hn : n1 = n2 := Option.some.inj (hk1.symm.trans hk2)
    refine ⟨n1, ?_, ?_⟩
    · rw [buildLineageState_itemMap hk fd runs docs items reviews reqs links
        i1.id (fun rv hm => hrv rv hm i1 h1)]
      exact hm1
    · rw [buildLineageState_itemMap hk fd runs docs items reviews reqs links
        i2.id (fun rv hm => hrv rv hm i2 h2), hn]
      exact hm2

/-- Counterexample to C7 as stated: two document records whose URLs are
UTM-tagged and untagged forms of the same address are NOT merged — the
builder produces two distinct SourceDocument nodes, because
`normalizeUrl` keeps the query string. -/
theorem claim_C7_counterexample :
    normalizeUrl "https://example.com/page?utm_source=news"
        ≠ normalizeUrl "https://example.com/page"
  ∧ (buildLineageGraph (fun s => s) (fun s => s) [] [c7cDocA, c7cDocB]
      [] [] [] []).nodes.length = 2
  ∧ (buildLineageGraph (fun s => s) (fun s => s) [] [c7cDocA, c7cDocB]
      [] [] [] []).nodes.map (·.type)
      = ["SourceDocument", "SourceDocument"] := by
  refine ⟨by decide, by decide, by decide⟩

/-- Witness for the amended C7: trailing-slash variants of the same URL
are merged into a single node, both for document rows and for item
rows. -/
theorem claim_C7_witness :
    (∃ i,
      mapGet (buildLineageState (fun s => s) (fun s => s) []
        [c7wDocA, c7wDocB] [c7wItemA, c7wItemB] [] []
        []).sourceDocIdToNodeId c7wDocA.id = some i
      ∧ mapGet (buildLineageState (fun s => s) (fun s => s) []
        [c7wDocA, c7wDocB] [c7wItemA, c7wItemB] [] []
        []).sourceDocIdToNodeId c7wDocB.id = some i)
  ∧ (∃ n,
      mapGet (buildLineageState (fun s => s) (fun s => s) []
        [c7wDocA, c7wDocB] [c7wItemA, c7wItemB] [] []
        []).itemIdToNodeId c7wItemA.id = some n
      ∧ mapGet (buildLineageState (fun s => s) (fun s => s) []
        [c7wDocA, c7wDocB] [c7wItemA, c7wItemB] [] []
        []).itemIdToNodeId c7wItemB.id = some n) := by
  have h := claim_C7_lineage_amended (fun s => s) (fun s => s) []
    [c7wDocA, c7wDocB] [c7wItemA, c7wItemB] [] [] []
  refine ⟨h.2.2.1 (by decide) c7wDocA (by decide) c7wDocB (by decide)
      (by decide),
    h.2.2.2 (by decide) (by intro rv hm; cases hm) c7wItemA (by decide)
      c7wItemB (by decide) (by decide)⟩
